import Mathlib

/-!
# DG-LAB V3 controller: protocol codec and channel controller

A shallow embedding of the Go packages `internal/protocol`, `internal/pulse`,
`internal/bluetooth` and `internal/coyote`, followed by theorems about them.

Conventions of the embedding

* A Go `byte` is `Fin 256`; every conversion into a byte is written with an
  explicit `% 256` (`byteOfNat`, `byteOfInt`).
* A Go `int` is a Lean `Int`; the sums and differences of `AddStrength` and
  `SubStrength`, whose operands come from the caller, are reduced to the
  64-bit two's complement range by `wrapInt`.
* A Go `string` is a Lean `String`; `encoding/hex` reads its UTF-8 bytes.
* A Go `[4]WaveData` is a function `Fin 4 → WaveData`; `a[i] = x` is
  `Function.update a i x`.
* A Go `error` result is an `Option` (or `Except`) over an inductive type
  with one constructor for each `fmt.Errorf` site.
* Methods with a pointer receiver return the updated receiver.  Logging is
  omitted.  The mutex is omitted: every operation is modelled as one
  sequential step.
* Outcomes decided by the platform (the Bluetooth stack, the pattern file)
  are arguments of the operation: `writeOk`, `discOk`, `enableOk`, `loaded`,
  `ScanAnswers`.
-/

/-- A Go `byte`. -/
abbrev Byte := Fin 256

/-- The byte made of the low 8 bits of a natural number. -/
def byteOfNat (n : Nat) : Byte := ⟨n % 256, Nat.mod_lt n (by decide)⟩

/-- Go conversion `byte(x)` of an `int`: the low 8 bits of its two's
complement representation. -/
def byteOfInt (x : Int) : Byte := byteOfNat (x % 256).toNat

/-- Go `a << k` on bytes: the shifted value truncated to 8 bits. -/
def byteShl (a : Byte) (k : Nat) : Byte := byteOfNat (a.val <<< k)

/-- Go `a | b` on bytes. -/
def byteOr (a b : Byte) : Byte := byteOfNat (a.val ||| b.val)

/-- Width of a Go `int` on the 64-bit targets of the program. -/
def intBits : Nat := 64

/-- Smallest Go `int`. -/
def minInt : Int := -(2 ^ (intBits - 1))

/-- Largest Go `int`. -/
def maxInt : Int := 2 ^ (intBits - 1) - 1

/-- Reduction of a mathematical integer to the Go `int` it is stored as
(two's complement wrap-around). -/
def wrapInt (x : Int) : Int := (x + 2 ^ (intBits - 1)) % 2 ^ intBits - 2 ^ (intBits - 1)

/-- The UTF-8 bytes of a string, which is what Go's `[]byte(s)` yields. -/
def stringBytes (s : String) : List Byte :=
  s.data.flatMap (fun c => (String.utf8EncodeChar c).map (fun b => byteOfNat b.toNat))

namespace hex

/-- Errors of Go's `encoding/hex`: `InvalidByteError(b)` and `ErrLength`. -/
inductive Error where
  | InvalidByteError (b : Byte)
  | ErrLength
  deriving DecidableEq, Repr

/-- Go's `reverseHexTable`: the value of a hexadecimal digit in either case,
`0xff` for every other byte. -/
def reverseHexTable (c : Byte) : Byte :=
  if 48 ≤ c.val ∧ c.val ≤ 57 then byteOfNat (c.val - 48)
  else if 97 ≤ c.val ∧ c.val ≤ 102 then byteOfNat (c.val - 97 + 10)
  else if 65 ≤ c.val ∧ c.val ≤ 70 then byteOfNat (c.val - 65 + 10)
  else 0xff

/-- Model of the Go standard library loop `hex.Decode`: the source is read
two bytes at a time, each pair `p q` giving the byte `(a << 4) | b`; an
invalid digit stops with `InvalidByteError`, a trailing single valid digit
with `ErrLength`.  The bytes decoded before an error are dropped, the
caller below never reads them. -/
def Decode : List Byte → Except Error (List Byte)
  | p :: q :: rest =>
    let a := reverseHexTable p
    let b := reverseHexTable q
    if a > 0x0f then .error (.InvalidByteError p)
    else if b > 0x0f then .error (.InvalidByteError q)
    else
      match Decode rest with
      | .ok ds => .ok (byteOr (byteShl a 4) b :: ds)
      | .error e => .error e
  | [p] =>
    if reverseHexTable p > 0x0f then .error (.InvalidByteError p)
    else .error .ErrLength
  | [] => .ok []

/-- Model of the Go standard library function `hex.DecodeString`. -/
def DecodeString (s : String) : Except Error (List Byte) :=
  Decode (stringBytes s)

end hex

namespace protocol

/-- Go `type StrengthMode byte`. -/
abbrev StrengthMode := Byte

def StrengthModeNoChange : StrengthMode := 0b00
def StrengthModeIncrease : StrengthMode := 0b01
def StrengthModeDecrease : StrengthMode := 0b10
def StrengthModeAbsolute : StrengthMode := 0b11

/-- One waveform slot. -/
structure WaveData where
  Frequency : Byte
  Strength : Byte
  deriving DecidableEq, Repr

/-- The B0 command of the DG-LAB V3 protocol. -/
structure B0Command where
  Sequence : Byte
  AMode : StrengthMode
  BMode : StrengthMode
  AStrength : Byte
  BStrength : Byte
  AWaveData : Fin 4 → WaveData
  BWaveData : Fin 4 → WaveData

/-- The indices `0, 1, 2, 3` visited in order by the loops over a
`[4]WaveData`. -/
def slots : List (Fin 4) := [0, 1, 2, 3]

/-- The zero value of `[4]WaveData`. -/
def zeroWaves : Fin 4 → WaveData := fun _ => ⟨0, 0⟩

/-- Method `B0Command.ToBytes`: the 20-byte frame. -/
def B0Command.ToBytes (cmd : B0Command) : List Byte :=
  let data : List Byte := List.replicate 20 0
  let data := data.set 0 0xB0
  let modeValue := byteOr (byteShl cmd.AMode 2) cmd.BMode
  let data := data.set 1 (byteOr (byteShl cmd.Sequence 4) modeValue)
  let data := data.set 2 cmd.AStrength
  let data := data.set 3 cmd.BStrength
  let data := slots.foldl
    (fun d i => (d.set (4 + i.val) (cmd.AWaveData i).Frequency).set (8 + i.val)
      (cmd.AWaveData i).Strength) data
  let data := slots.foldl
    (fun d i => (d.set (12 + i.val) (cmd.BWaveData i).Frequency).set (16 + i.val)
      (cmd.BWaveData i).Strength) data
  data

/-- Errors returned by `WaveDataFromHex`: the error of `hex.DecodeString`
passed on, or the length error carrying the decoded length. -/
inductive Error where
  | hexError (e : hex.Error)
  | waveLength (actual : Nat)
  deriving DecidableEq, Repr

/-- Function `WaveDataFromHex`: four frequency bytes followed by four strength bytes.
The indices `i` and `i+4` are in range because the length is 8. -/
def WaveDataFromHex (hexStr : String) : Except Error (Fin 4 → WaveData) :=
  match hex.DecodeString hexStr with
  | .error err => .error (.hexError err)
  | .ok data =>
    if data.length ≠ 8 then .error (.waveLength data.length)
    else
      .ok (slots.foldl
        (fun waves i =>
          let frequency := data.getD i.val 0
          let strength := data.getD (i.val + 4) 0
          let frequency :=
            if frequency < 10 then 10 else if frequency > 240 then 240 else frequency
          let strength := if strength > 100 then 100 else strength
          Function.update waves i { Frequency := frequency, Strength := strength })
        zeroWaves)

/-- Function `ConvertFrequency`: input frequency (10..1000) to protocol byte. -/
def ConvertFrequency (input : Int) : Byte :=
  if input ≥ 10 ∧ input ≤ 100 then byteOfInt input
  else if input ≥ 101 ∧ input ≤ 600 then byteOfInt ((input - 100).tdiv 5 + 100)
  else if input ≥ 601 ∧ input ≤ 1000 then byteOfInt ((input - 600).tdiv 10 + 200)
  else 10

/-- Function `ValidateStrength`: clamp into 0..200. -/
def ValidateStrength (strength : Int) : Byte :=
  if strength < 0 then 0
  else if strength > 200 then 200
  else byteOfInt strength

end protocol

namespace pulse

set_option linter.dupNamespace false in
/-- A named waveform pattern with its frames as hexadecimal strings. -/
structure PulseData where
  ID : String
  Name : String
  PulseData : List String
  deriving DecidableEq, Repr

/-- The error of `GetPulse`. -/
inductive Error where
  | notFound (id : String)
  deriving DecidableEq, Repr

/-- The waveform manager.  The Go map `map[string]*PulseData` is an
association list in which the first binding of a key is the live one. -/
structure Manager where
  pulses : List (String × PulseData)
  deriving DecidableEq, Repr

/-- Method `Manager.GetPulse`: the pattern stored under `id`, or an error. -/
def Manager.GetPulse (m : Manager) (id : String) : Except Error PulseData :=
  match m.pulses.lookup id with
  | none => .error (.notFound id)
  | some pulse => .ok pulse

/-- Method `Manager.AddPulse`: `m.pulses[pulse.ID] = pulse`. -/
def Manager.AddPulse (m : Manager) (pulse : PulseData) : Manager :=
  { pulses := (pulse.ID, pulse) :: m.pulses.filter (fun e => e.1 ≠ pulse.ID) }

/-- Function `NewDefaultManager`: the three built-in patterns. -/
def NewDefaultManager : Manager :=
  let defaultPulses : List PulseData :=
    [ { ID := "d6f83af0", Name := "呼吸",
        PulseData :=
          ["0A0A0A0A00000000", "0A0A0A0A14141414", "0A0A0A0A28282828", "0A0A0A0A3C3C3C3C",
            "0A0A0A0A50505050", "0A0A0A0A64646464", "0A0A0A0A64646464", "0A0A0A0A64646464",
            "0A0A0A0A00000000", "0A0A0A0A00000000", "0A0A0A0A00000000", "0A0A0A0A00000000"] },
      { ID := "7eae1e5f", Name := "潮汐",
        PulseData :=
          ["0A0A0A0A00000000", "0D0D0D0D0F0F0F0F", "101010101E1E1E1E", "1313131332323232",
            "1616161641414141", "1A1A1A1A50505050", "1D1D1D1D64646464", "202020205A5A5A5A",
            "2323232350505050", "262626264B4B4B4B", "2A2A2A2A41414141", "0A0A0A0A00000000"] },
      { ID := "eea0e4ce", Name := "连击",
        PulseData :=
          ["0A0A0A0A64646464", "0A0A0A0A00000000", "0A0A0A0A64646464", "0A0A0A0A41414141",
            "0A0A0A0A1E1E1E1E", "0A0A0A0A00000000", "0A0A0A0A00000000", "0A0A0A0A00000000",
            "0A0A0A0A64646464", "0A0A0A0A00000000", "0A0A0A0A64646464", "0A0A0A0A00000000"] } ]
  defaultPulses.foldl (fun m pulse => m.AddPulse pulse) { pulses := [] }

end pulse

namespace bluetooth

/-- Errors of the adapter: the "not connected" error of
`WriteCharacteristic`, a failed `WriteWithoutResponse`, a failed
`device.Disconnect`, and the seven error returns of `ScanAndConnect` in
source order. -/
inductive Error where
  | notConnected
  | writeFailed
  | disconnectFailed
  | scanFailed
  | deviceNotFound
  | connectFailed
  | discoverServicesFailed
  | serviceNotFound
  | discoverCharacteristicsFailed
  | writeCharacteristicNotFound
  deriving DecidableEq, Repr

/-- The adapter fields the controller depends on.  `device` is `none` for a
nil pointer.  `wire` is the list of frames that `WriteWithoutResponse`
accepted, oldest first; it stands for the device side of the link. -/
structure BluetoothAdapter where
  device : Option Nat
  connected : Bool
  wire : List (List Byte)
  deriving DecidableEq, Repr

/-- Method `BluetoothAdapter.IsConnected`. -/
def BluetoothAdapter.IsConnected (ba : BluetoothAdapter) : Bool := ba.connected

/-- Method `BluetoothAdapter.WriteCharacteristic`; `writeOk` is the outcome of the
platform call `WriteWithoutResponse`. -/
def BluetoothAdapter.WriteCharacteristic (ba : BluetoothAdapter) (data : List Byte)
    (writeOk : Bool) : BluetoothAdapter × Option Error :=
  if !ba.connected then (ba, some .notConnected)
  else if writeOk then ({ ba with wire := ba.wire ++ [data] }, none)
  else (ba, some .writeFailed)

/-- Method `BluetoothAdapter.Disconnect`; `discOk` is the outcome of the platform
call `device.Disconnect`. -/
def BluetoothAdapter.Disconnect (ba : BluetoothAdapter) (discOk : Bool) :
    BluetoothAdapter × Option Error :=
  if ba.device.isSome && ba.connected then
    ({ ba with connected := false, device := none },
      if discOk then none else some .disconnectFailed)
  else (ba, none)

/-- Function `NewBluetoothAdapter`: no device, not connected, nothing written. -/
def NewBluetoothAdapter : BluetoothAdapter :=
  { device := none, connected := false, wire := [] }

/-- The answers of the platform Bluetooth stack during one call of
`ScanAndConnect`: whether `adapter.Scan` returned an error, the local names
of the advertisements handed to the scan callback, the device handle
returned by `adapter.Connect` (`none` for an error), the number of services
returned by `DiscoverServices` (`none` for an error) and the UUID strings
of the characteristics returned by `DiscoverCharacteristics` (`none` for an
error). -/
structure ScanAnswers where
  scanErr : Bool
  advertised : List String
  connect : Option Nat
  services : Option Nat
  characteristics : Option (List String)
  deriving DecidableEq, Repr

/-- Method `BluetoothAdapter.ScanAndConnect`.  The argument `nameMatches a b`
stands for the library test
`strings.Contains(strings.ToLower(a), strings.ToLower(b))`.  The source
never reads `timeout`.  Enabling notifications only logs and is left out,
as is the `characteristic` field, which only addresses the platform write
call. -/
def BluetoothAdapter.ScanAndConnect (ba : BluetoothAdapter) (_timeout : Int)
    (deviceNames : List String) (nameMatches : String → String → Bool) (p : ScanAnswers) :
    BluetoothAdapter × Option Error :=
  let found := p.advertised.any (fun deviceName =>
    deviceNames.any (fun name => nameMatches deviceName name))
  if p.scanErr then (ba, some .scanFailed)
  else if !found then (ba, some .deviceNotFound)
  else
    match p.connect with
    | none => (ba, some .connectFailed)
    | some device =>
      let ba := { ba with device := some device }
      match p.services with
      | none => (ba, some .discoverServicesFailed)
      | some services =>
        if services == 0 then (ba, some .serviceNotFound)
        else
          match p.characteristics with
          | none => (ba, some .discoverCharacteristicsFailed)
          | some characteristics =>
            let writeCharFound :=
              characteristics.any (fun u => u == "0000150a-0000-1000-8000-00805f9b34fb")
            if !writeCharFound then (ba, some .writeCharacteristicNotFound)
            else ({ ba with connected := true }, none)

end bluetooth

namespace config

/-- Settings of one channel. -/
structure ChannelSettings where
  Enabled : Bool
  MaxStrength : Int
  DefaultStrength : Int
  deriving DecidableEq, Repr

/-- Channel part of the configuration. -/
structure ChannelConfig where
  AChannel : ChannelSettings
  BChannel : ChannelSettings
  deriving DecidableEq, Repr

/-- Waveform part of the configuration. -/
structure PulseConfig where
  ConfigPath : String
  DefaultPulse : String
  UpdateInterval : Int
  deriving DecidableEq, Repr

/-- Bluetooth part of the configuration. -/
structure BluetoothConfig where
  ScanTimeout : Int
  DeviceNames : List String
  ServiceUUID : String
  WriteUUID : String
  NotifyUUID : String
  BatteryUUID : String
  deriving DecidableEq, Repr

/-- The application configuration. -/
structure Config where
  Bluetooth : BluetoothConfig
  Channels : ChannelConfig
  Pulses : PulseConfig
  deriving DecidableEq, Repr

/-- Function `DefaultConfig`. -/
def DefaultConfig : Config :=
  { Bluetooth :=
      { ScanTimeout := 30
        DeviceNames := ["47L121000", "47L120100"]
        ServiceUUID := "0000180C-0000-1000-8000-00805f9b34fb"
        WriteUUID := "0000150A-0000-1000-8000-00805f9b34fb"
        NotifyUUID := "0000150B-0000-1000-8000-00805f9b34fb"
        BatteryUUID := "00001500-0000-1000-8000-00805f9b34fb" }
    Channels :=
      { AChannel := { Enabled := true, MaxStrength := 100, DefaultStrength := 0 }
        BChannel := { Enabled := false, MaxStrength := 100, DefaultStrength := 0 } }
    Pulses :=
      { ConfigPath := "pulses.yaml", DefaultPulse := "d6f83af0", UpdateInterval := 100 } }

end config

namespace coyote

/-- Channel state of the controller. -/
structure ChannelState where
  AStrength : Int
  BStrength : Int
  ALimit : Int
  BLimit : Int
  CurrentPulse : String
  BatteryLevel : Int
  deriving DecidableEq, Repr

/-- Errors returned by the controller operations. -/
inductive Error where
  | notConnected
  | invalidChannel (channel : String)
  | sendFailed (cause : bluetooth.Error)
  | getPulseFailed (cause : pulse.Error)
  | enableFailed
  deriving DecidableEq, Repr

/-- The controller.  The `config` field is read only by `NewController` and
`ScanAndConnect` and is left out. -/
structure Controller where
  btAdapter : bluetooth.BluetoothAdapter
  pulseManager : pulse.Manager
  channelState : ChannelState
  sequence : Byte
  deriving DecidableEq, Repr

/-- Function `NewController`.  The argument `loaded` is the outcome of
`pulse.NewManager(cfg.Pulses.ConfigPath)`, which reads and parses a file
(`none` for an error), and `enableOk` the outcome of the platform call
`btAdapter.Enable`. -/
def NewController (cfg : config.Config) (loaded : Option pulse.Manager) (enableOk : Bool) :
    Except Error Controller :=
  let pulseManager :=
    match loaded with
    | some m => m
    | none => pulse.NewDefaultManager
  let btAdapter := bluetooth.NewBluetoothAdapter
  if !enableOk then .error .enableFailed
  else
    .ok
      { btAdapter := btAdapter
        pulseManager := pulseManager
        channelState :=
          { AStrength := cfg.Channels.AChannel.DefaultStrength
            BStrength := cfg.Channels.BChannel.DefaultStrength
            ALimit := cfg.Channels.AChannel.MaxStrength
            BLimit := cfg.Channels.BChannel.MaxStrength
            CurrentPulse := cfg.Pulses.DefaultPulse
            BatteryLevel := 0 }
        sequence := 1 }

/-- The `case "A", "a":` arm of the channel switches. -/
def isA (channel : String) : Bool := channel == "A" || channel == "a"

/-- The `case "B", "b":` arm of the channel switches. -/
def isB (channel : String) : Bool := channel == "B" || channel == "b"

/-- Method `Controller.buildB0Command`: the base frame with both modes `NoChange`
and the waveform of the current pattern; the sequence number advances. -/
def Controller.buildB0Command (c : Controller) : Controller × protocol.B0Command :=
  let pulseData := (c.pulseManager.GetPulse c.channelState.CurrentPulse).toOption
  let cmd : protocol.B0Command :=
    { Sequence := c.sequence
      AMode := protocol.StrengthModeNoChange
      BMode := protocol.StrengthModeNoChange
      AStrength := 0
      BStrength := 0
      AWaveData := protocol.zeroWaves
      BWaveData := protocol.zeroWaves }
  let cmd :=
    match pulseData.map (fun p => p.PulseData) with
    | some (hexData :: _) =>
      let cmd :=
        match protocol.WaveDataFromHex hexData with
        | .ok aWaves => { cmd with AWaveData := aWaves }
        | .error _ => cmd
      match protocol.WaveDataFromHex hexData with
      | .ok bWaves => { cmd with BWaveData := bWaves }
      | .error _ => cmd
    | _ =>
      let defaultWave : protocol.WaveData := { Frequency := 10, Strength := 50 }
      protocol.slots.foldl
        (fun cmd i =>
          { cmd with
            AWaveData := Function.update cmd.AWaveData i defaultWave
            BWaveData := Function.update cmd.BWaveData i defaultWave })
        cmd
  let sequence := byteOfNat (c.sequence.val + 1)
  let sequence := if sequence > 15 then 1 else sequence
  ({ c with sequence := sequence }, cmd)

/-- Method `Controller.sendCommand`: encode and write the frame. -/
def Controller.sendCommand (c : Controller) (cmd : protocol.B0Command) (writeOk : Bool) :
    Controller × Option Error :=
  let data := cmd.ToBytes
  match c.btAdapter.WriteCharacteristic data writeOk with
  | (ba, some err) => ({ c with btAdapter := ba }, some (.sendFailed err))
  | (ba, none) => ({ c with btAdapter := ba }, none)

/-- The second channel switch of the strength operations: the touched
channel gets mode `Absolute` and the strength byte. -/
def setAbsolute (cmd : protocol.B0Command) (channel : String) (strength : Int) :
    protocol.B0Command :=
  if isA channel then
    { cmd with AMode := protocol.StrengthModeAbsolute, AStrength := byteOfInt strength }
  else if isB channel then
    { cmd with BMode := protocol.StrengthModeAbsolute, BStrength := byteOfInt strength }
  else cmd

/-- Method `Controller.SetStrength`. -/
def Controller.SetStrength (c : Controller) (channel : String) (strength : Int)
    (writeOk : Bool) : Controller × Option Error :=
  if !c.btAdapter.IsConnected then (c, some .notConnected)
  else
    let strength : Int := ((protocol.ValidateStrength strength).val : Int)
    if isA channel then
      let limit := c.channelState.ALimit
      let strength := if strength > limit then limit else strength
      let c := { c with channelState := { c.channelState with AStrength := strength } }
      let (c, cmd) := c.buildB0Command
      c.sendCommand (setAbsolute cmd channel strength) writeOk
    else if isB channel then
      let limit := c.channelState.BLimit
      let strength := if strength > limit then limit else strength
      let c := { c with channelState := { c.channelState with BStrength := strength } }
      let (c, cmd) := c.buildB0Command
      c.sendCommand (setAbsolute cmd channel strength) writeOk
    else (c, some (.invalidChannel channel))

/-- Method `Controller.SetLimit`. -/
def Controller.SetLimit (c : Controller) (channel : String) (limit : Int) :
    Controller × Option Error :=
  let limit : Int := ((protocol.ValidateStrength limit).val : Int)
  if isA channel then
    let cs := { c.channelState with ALimit := limit }
    let cs := if cs.AStrength > limit then { cs with AStrength := limit } else cs
    ({ c with channelState := cs }, none)
  else if isB channel then
    let cs := { c.channelState with BLimit := limit }
    let cs := if cs.BStrength > limit then { cs with BStrength := limit } else cs
    ({ c with channelState := cs }, none)
  else (c, some (.invalidChannel channel))

/-- Method `Controller.SetPulse`. -/
def Controller.SetPulse (c : Controller) (pulseID : String) : Controller × Option Error :=
  match c.pulseManager.GetPulse pulseID with
  | .error err => (c, some (.getPulseFailed err))
  | .ok _ => ({ c with channelState := { c.channelState with CurrentPulse := pulseID } }, none)

/-- Method `Controller.AddStrength`. -/
def Controller.AddStrength (c : Controller) (channel : String) (value : Int)
    (writeOk : Bool) : Controller × Option Error :=
  if !c.btAdapter.IsConnected then (c, some .notConnected)
  else
    let current : Option Int :=
      if isA channel then some c.channelState.AStrength
      else if isB channel then some c.channelState.BStrength
      else none
    match current with
    | none => (c, some (.invalidChannel channel))
    | some currentStrength =>
      let newStrength := wrapInt (currentStrength + value)
      let newStrength := if newStrength < 0 then 0 else newStrength
      let newStrength : Int := ((protocol.ValidateStrength newStrength).val : Int)
      if isA channel then
        let limit := c.channelState.ALimit
        let newStrength := if newStrength > limit then 20 else newStrength
        let c := { c with channelState := { c.channelState with AStrength := newStrength } }
        let (c, cmd) := c.buildB0Command
        c.sendCommand (setAbsolute cmd channel newStrength) writeOk
      else if isB channel then
        let limit := c.channelState.BLimit
        let newStrength := if newStrength > limit then 20 else newStrength
        let c := { c with channelState := { c.channelState with BStrength := newStrength } }
        let (c, cmd) := c.buildB0Command
        c.sendCommand (setAbsolute cmd channel newStrength) writeOk
      else
        let (c, cmd) := c.buildB0Command
        c.sendCommand (setAbsolute cmd channel newStrength) writeOk

/-- Method `Controller.SubStrength`. -/
def Controller.SubStrength (c : Controller) (channel : String) (value : Int)
    (writeOk : Bool) : Controller × Option Error :=
  if !c.btAdapter.IsConnected then (c, some .notConnected)
  else
    let current : Option Int :=
      if isA channel then some c.channelState.AStrength
      else if isB channel then some c.channelState.BStrength
      else none
    match current with
    | none => (c, some (.invalidChannel channel))
    | some currentStrength =>
      let newStrength := wrapInt (currentStrength - value)
      let newStrength := if newStrength < 0 then 0 else newStrength
      let newStrength : Int := ((protocol.ValidateStrength newStrength).val : Int)
      let cs :=
        if isA channel then { c.channelState with AStrength := newStrength }
        else if isB channel then { c.channelState with BStrength := newStrength }
        else c.channelState
      let c := { c with channelState := cs }
      let (c, cmd) := c.buildB0Command
      c.sendCommand (setAbsolute cmd channel newStrength) writeOk

/-- Method `Controller.GetStatus`: a copy of the channel state. -/
def Controller.GetStatus (c : Controller) : ChannelState :=
  { AStrength := c.channelState.AStrength
    BStrength := c.channelState.BStrength
    ALimit := c.channelState.ALimit
    BLimit := c.channelState.BLimit
    CurrentPulse := c.channelState.CurrentPulse
    BatteryLevel := c.channelState.BatteryLevel }

/-- Method `Controller.IsConnected`. -/
def Controller.IsConnected (c : Controller) : Bool := c.btAdapter.IsConnected

/-- A concrete controller for instantiating the theorems: connected, holding
the built-in patterns with the first one selected, sequence counter 1, and
the given strengths `a`, `b` and limits `la`, `lb`. -/
def connectedAt (a b la lb : Int) : Controller :=
  { btAdapter := { device := some 0, connected := true, wire := [] }
    pulseManager := pulse.NewDefaultManager
    channelState :=
      { AStrength := a, BStrength := b, ALimit := la, BLimit := lb
        CurrentPulse := "d6f83af0", BatteryLevel := 0 }
    sequence := 1 }

/-- A second concrete controller: the one `NewController` returns for
`DefaultConfig` when no pattern file loads and the adapter enables; it is not
connected. -/
def freshDefault : Controller :=
  { btAdapter := bluetooth.NewBluetoothAdapter
    pulseManager := pulse.NewDefaultManager
    channelState :=
      { AStrength := 0, BStrength := 0, ALimit := 100, BLimit := 100
        CurrentPulse := "d6f83af0", BatteryLevel := 0 }
    sequence := 1 }

end coyote

/-! ## Theorems: protocol codec -/

open protocol

/-- The frame written out byte by byte. -/
theorem toBytes_eq (cmd : B0Command) :
    cmd.ToBytes =
      [0xB0, byteOr (byteShl cmd.Sequence 4) (byteOr (byteShl cmd.AMode 2) cmd.BMode),
        cmd.AStrength, cmd.BStrength,
        (cmd.AWaveData 0).Frequency, (cmd.AWaveData 1).Frequency,
        (cmd.AWaveData 2).Frequency, (cmd.AWaveData 3).Frequency,
        (cmd.AWaveData 0).Strength, (cmd.AWaveData 1).Strength,
        (cmd.AWaveData 2).Strength, (cmd.AWaveData 3).Strength,
        (cmd.BWaveData 0).Frequency, (cmd.BWaveData 1).Frequency,
        (cmd.BWaveData 2).Frequency, (cmd.BWaveData 3).Frequency,
        (cmd.BWaveData 0).Strength, (cmd.BWaveData 1).Strength,
        (cmd.BWaveData 2).Strength, (cmd.BWaveData 3).Strength] := by
  simp [B0Command.ToBytes, slots, List.replicate, List.set]

/-- C1: for every command, `ToBytes` returns exactly 20 bytes; byte 0 is
`0xB0`, byte 2 is `AStrength`, byte 3 is `BStrength`, and for each slot `i`
bytes `4+i`, `8+i`, `12+i`, `16+i` are the A frequency, A strength,
B frequency and B strength of that slot. -/
theorem toBytes_layout (cmd : B0Command) :
    cmd.ToBytes.length = 20 ∧
    cmd.ToBytes[0]? = some 0xB0 ∧
    cmd.ToBytes[2]? = some cmd.AStrength ∧
    cmd.ToBytes[3]? = some cmd.BStrength ∧
    ∀ i : Fin 4,
      cmd.ToBytes[4 + i.val]? = some (cmd.AWaveData i).Frequency ∧
      cmd.ToBytes[8 + i.val]? = some (cmd.AWaveData i).Strength ∧
      cmd.ToBytes[12 + i.val]? = some (cmd.BWaveData i).Frequency ∧
      cmd.ToBytes[16 + i.val]? = some (cmd.BWaveData i).Strength := by
  rw [toBytes_eq]
  refine ⟨rfl, rfl, rfl, rfl, ?_⟩
  intro i
  fin_cases i <;> exact ⟨rfl, rfl, rfl, rfl⟩

/-- Packing of a 4-bit sequence number and two 2-bit modes, checked on all
256 combinations. -/
theorem pack_small :
    ∀ s : Fin 16, ∀ a b : Fin 4,
      ((s.val <<< 4) % 256 ||| ((a.val <<< 2) % 256 ||| b.val) % 256) % 256
          = s.val * 16 + a.val * 4 + b.val ∧
        (s.val * 16 + a.val * 4 + b.val) >>> 4 = s.val ∧
        ((s.val * 16 + a.val * 4 + b.val) >>> 2) &&& 3 = a.val ∧
        (s.val * 16 + a.val * 4 + b.val) &&& 3 = b.val := by
  decide

/-- C2: when `Sequence` is in 1..15 and both modes are among the four 2-bit
modes, byte 1 of the frame is `Sequence*16 + AMode*4 + BMode` as a number
(nothing is lost to the 8-bit truncation); its high nibble is `Sequence`,
bits 3..2 are `AMode` and bits 1..0 are `BMode`. -/
theorem toBytes_byte1 (cmd : B0Command)
    (hlo : 1 ≤ cmd.Sequence.val) (hhi : cmd.Sequence.val ≤ 15)
    (ha : cmd.AMode ∈ [StrengthModeNoChange, StrengthModeIncrease, StrengthModeDecrease,
      StrengthModeAbsolute])
    (hb : cmd.BMode ∈ [StrengthModeNoChange, StrengthModeIncrease, StrengthModeDecrease,
      StrengthModeAbsolute]) :
    ∃ b1 : Byte, cmd.ToBytes[1]? = some b1 ∧
      b1.val = cmd.Sequence.val * 16 + cmd.AMode.val * 4 + cmd.BMode.val ∧
      b1.val >>> 4 = cmd.Sequence.val ∧
      (b1.val >>> 2) &&& 3 = cmd.AMode.val ∧
      b1.val &&& 3 = cmd.BMode.val := by
  have ha4 : cmd.AMode.val < 4 := by
    simp only [List.mem_cons, List.mem_singleton, List.not_mem_nil, or_false] at ha
    rcases ha with h | h | h | h <;> rw [h] <;> decide
  have hb4 : cmd.BMode.val < 4 := by
    simp only [List.mem_cons, List.mem_singleton, List.not_mem_nil, or_false] at hb
    rcases hb with h | h | h | h <;> rw [h] <;> decide
  have key := pack_small ⟨cmd.Sequence.val, by omega⟩ ⟨cmd.AMode.val, ha4⟩ ⟨cmd.BMode.val, hb4⟩
  refine ⟨byteOr (byteShl cmd.Sequence 4) (byteOr (byteShl cmd.AMode 2) cmd.BMode), ?_, ?_⟩
  · rw [toBytes_eq]; rfl
  · have hval : (byteOr (byteShl cmd.Sequence 4) (byteOr (byteShl cmd.AMode 2) cmd.BMode)).val
        = cmd.Sequence.val * 16 + cmd.AMode.val * 4 + cmd.BMode.val := key.1
    rw [hval]
    exact ⟨rfl, key.2.1, key.2.2.1, key.2.2.2⟩

/-- Witness for C2: sequence 15, A absolute, B unchanged gives `0xFC`. -/
theorem toBytes_byte1_witness :
    ∃ b1 : Byte,
      (B0Command.ToBytes ⟨15, StrengthModeAbsolute, StrengthModeNoChange, 20, 0,
        zeroWaves, zeroWaves⟩)[1]? = some b1 ∧
      b1.val = 15 * 16 + 3 * 4 + 0 ∧ b1.val >>> 4 = 15 ∧
      (b1.val >>> 2) &&& 3 = 3 ∧ b1.val &&& 3 = 0 :=
  toBytes_byte1 ⟨15, StrengthModeAbsolute, StrengthModeNoChange, 20, 0, zeroWaves, zeroWaves⟩
    (by decide) (by decide) (by decide) (by decide)

set_option maxRecDepth 100000 in
/-- The code's test for a hexadecimal digit byte. -/
theorem reverseHexTable_le_iff (b : Byte) :
    hex.reverseHexTable b ≤ 0x0f ↔
      (48 ≤ b.val ∧ b.val ≤ 57) ∨ (97 ≤ b.val ∧ b.val ≤ 102) ∨ (65 ≤ b.val ∧ b.val ≤ 70) := by
  revert b
  decide

/-- A successful `Decode` read an even number of bytes, all of them
hexadecimal digits, and produced one byte for every two. -/
theorem decode_ok_inv : ∀ (bs ds : List Byte), hex.Decode bs = .ok ds →
    bs.length = 2 * ds.length ∧ ∀ b ∈ bs, hex.reverseHexTable b ≤ 0x0f
  | [], ds, h => by
    simp [hex.Decode] at h
    subst h
    simp
  | [p], ds, h => by
    simp only [hex.Decode] at h
    split at h <;> simp at h
  | p :: q :: rest, ds, h => by
    simp only [hex.Decode] at h
    split at h
    · simp at h
    · split at h
      · simp at h
      · rename_i hp hq
        cases hrest : hex.Decode rest with
        | error e => rw [hrest] at h; simp at h
        | ok ds' =>
          rw [hrest] at h
          simp only [Except.ok.injEq] at h
          subst h
          have ih := decode_ok_inv rest ds' hrest
          refine ⟨by simp [ih.1]; omega, ?_⟩
          intro b hb
          simp only [List.mem_cons] at hb
          rcases hb with rfl | rfl | hb
          · exact not_lt.mp hp
          · exact not_lt.mp hq
          · exact ih.2 b hb

/-- On an even number of hexadecimal digit bytes `Decode` succeeds. -/
theorem decode_of_digits : ∀ (n : Nat) (bs : List Byte), bs.length = 2 * n →
    (∀ b ∈ bs, hex.reverseHexTable b ≤ 0x0f) → ∃ ds, hex.Decode bs = .ok ds ∧ ds.length = n
  | 0, bs, hlen, _ => by
    have : bs = [] := List.length_eq_zero.mp (by omega)
    subst this
    exact ⟨[], rfl, rfl⟩
  | n + 1, bs, hlen, hall => by
    match bs, hlen, hall with
    | p :: q :: rest, hlen, hall =>
      have hp : hex.reverseHexTable p ≤ 0x0f := hall p (by simp)
      have hq : hex.reverseHexTable q ≤ 0x0f := hall q (by simp)
      obtain ⟨ds, hds, hl⟩ := decode_of_digits n rest (by simp at hlen; omega)
        (fun b hb => hall b (by simp [hb]))
      refine ⟨byteOr (byteShl (hex.reverseHexTable p) 4) (hex.reverseHexTable q) :: ds, ?_,
        by simp [hl]⟩
      simp only [hex.Decode]
      rw [if_neg (not_lt.mpr hp), if_neg (not_lt.mpr hq), hds]
    | [_], hlen, _ => simp at hlen; omega
    | [], hlen, _ => simp at hlen

set_option maxRecDepth 100000 in
/-- Every byte `x &&& m ||| 192` with the two top bits set is rejected by the
hexadecimal table, whatever the mask and the bits below. -/
theorem lead_byte_not_digit (x m : UInt8) (k : UInt8) (hk : k = 192 ∨ k = 224 ∨ k = 240) :
    ¬ hex.reverseHexTable (byteOfNat (x &&& m ||| k).toNat) ≤ 0x0f := by
  have h128 : 128 ≤ (x &&& m ||| k).toNat := by
    have hbit : ∀ y : BitVec 8, ∀ j : Fin 3, 128 ≤ (y ||| (#[192#8, 224#8, 240#8][j])).toNat := by
      decide
    rcases hk with rfl | rfl | rfl
    · exact hbit (x &&& m).toBitVec 0
    · exact hbit (x &&& m).toBitVec 1
    · exact hbit (x &&& m).toBitVec 2
  have hlt : (x &&& m ||| k).toNat < 256 := (x &&& m ||| k).toBitVec.isLt
  rw [reverseHexTable_le_iff]
  simp only [byteOfNat]
  have : (x &&& m ||| k).toNat % 256 = (x &&& m ||| k).toNat := Nat.mod_eq_of_lt hlt
  rw [this]
  omega

/-- The UTF-8 bytes of one character, as `stringBytes` produces them. -/
theorem stringBytes_eq (s : String) :
    stringBytes s =
      s.data.flatMap (fun c => (String.utf8EncodeChar c).map (fun b => byteOfNat b.toNat)) :=
  rfl

/-- A hexadecimal digit character is one UTF-8 byte, accepted by the table. -/
theorem digit_char_bytes (c : Char) (hc : c ∈ "0123456789abcdefABCDEF".toList) :
    ∃ b, (String.utf8EncodeChar c).map (fun b => byteOfNat b.toNat) = [b] ∧
      hex.reverseHexTable b ≤ 0x0f := by
  simp only [String.toList, List.mem_cons, List.mem_singleton, List.not_mem_nil, or_false] at hc
  rcases hc with h | h | h | h | h | h | h | h | h | h | h | h | h | h | h | h | h | h | h | h
    | h | h <;> subst h <;> exact ⟨_, rfl, by decide⟩

/-- A character all of whose UTF-8 bytes are accepted by the table is a
hexadecimal digit. -/
theorem char_of_digit_bytes (c : Char)
    (h : ∀ b ∈ (String.utf8EncodeChar c).map (fun b => byteOfNat b.toNat),
      hex.reverseHexTable b ≤ 0x0f) :
    c ∈ "0123456789abcdefABCDEF".toList := by
  unfold String.utf8EncodeChar at h
  simp only at h
  split at h
  · rename_i h127
    have hv : c.val.toNat ≤ 127 := by
      have := UInt32.le_def.mp h127
      simpa using this
    have hb := h (byteOfNat c.val.toUInt8.toNat) (by simp)
    rw [reverseHexTable_le_iff] at hb
    have hval : (byteOfNat c.val.toUInt8.toNat).val = c.toNat := by
      simp only [byteOfNat, UInt32.toUInt8, Nat.toUInt8, UInt8.toNat_ofNat, Char.toNat]
      show c.val.toNat % UInt8.size % 256 = c.val.toNat
      simp only [UInt8.size]
      omega
    rw [hval] at hb
    rw [← Char.ofNat_toNat c]
    generalize c.toNat = n at hb
    have hn : 48 ≤ n ∧ n ≤ 102 := by omega
    obtain ⟨h1, h2⟩ := hn
    interval_cases n <;> first | omega | decide
  · split at h
    · exact absurd (h _ (by simp; left; rfl)) (lead_byte_not_digit _ _ _ (Or.inl rfl))
    · split at h
      · exact absurd (h _ (by simp; left; rfl)) (lead_byte_not_digit _ _ _ (Or.inr (Or.inl rfl)))
      · exact absurd (h _ (by simp; left; rfl)) (lead_byte_not_digit _ _ _ (Or.inr (Or.inr rfl)))

/-- A list of hexadecimal digit characters encodes to as many bytes, all
accepted by the table. -/
theorem digits_bytes : ∀ (l : List Char), (∀ c ∈ l, c ∈ "0123456789abcdefABCDEF".toList) →
    (l.flatMap (fun c => (String.utf8EncodeChar c).map (fun b => byteOfNat b.toNat))).length
        = l.length ∧
      ∀ b ∈ l.flatMap (fun c => (String.utf8EncodeChar c).map (fun b => byteOfNat b.toNat)),
        hex.reverseHexTable b ≤ 0x0f
  | [], _ => by simp
  | c :: l, h => by
    obtain ⟨b, hb, hd⟩ := digit_char_bytes c (h c (by simp))
    obtain ⟨ih1, ih2⟩ := digits_bytes l (fun x hx => h x (by simp [hx]))
    rw [List.flatMap_cons, hb]
    refine ⟨by simp [ih1], ?_⟩
    intro x hx
    simp only [List.singleton_append, List.mem_cons] at hx
    rcases hx with rfl | hx
    · exact hd
    · exact ih2 x hx

/-- If every UTF-8 byte of a string is accepted by the table, every
character of the string is a hexadecimal digit. -/
theorem digits_of_bytes (s : String) (h : ∀ b ∈ stringBytes s, hex.reverseHexTable b ≤ 0x0f) :
    ∀ c ∈ s.data, c ∈ "0123456789abcdefABCDEF".toList := by
  intro c hc
  apply char_of_digit_bytes
  intro b hb
  apply h
  rw [stringBytes_eq, List.mem_flatMap]
  exact ⟨c, hc, hb⟩

/-- Function `WaveDataFromHex` succeeds exactly on the strings of 16 hexadecimal
digits. -/
theorem waveDataFromHex_ok_iff (hexStr : String) :
    (∃ waves, WaveDataFromHex hexStr = .ok waves) ↔
      hexStr.length = 16 ∧ ∀ c ∈ hexStr.data, c ∈ "0123456789abcdefABCDEF".toList := by
  constructor
  · rintro ⟨waves, hw⟩
    unfold WaveDataFromHex at hw
    cases hd : hex.DecodeString hexStr with
    | error e => rw [hd] at hw; simp at hw
    | ok data =>
      rw [hd] at hw
      simp only at hw
      split at hw
      · simp at hw
      · rename_i hlen
        have hlen8 : data.length = 8 := not_not.mp hlen
        obtain ⟨hl, hall⟩ := decode_ok_inv _ _ hd
        have hdig := digits_of_bytes hexStr hall
        have hbl := (digits_bytes hexStr.data hdig).1
        rw [← stringBytes_eq] at hbl
        refine ⟨?_, hdig⟩
        show hexStr.data.length = 16
        omega
  · rintro ⟨hlen, hdig⟩
    obtain ⟨hbl, hall⟩ := digits_bytes hexStr.data hdig
    rw [← stringBytes_eq] at hbl hall
    have hlen' : hexStr.data.length = 16 := hlen
    obtain ⟨ds, hds, hl⟩ := decode_of_digits 8 (stringBytes hexStr) (by omega) hall
    unfold WaveDataFromHex hex.DecodeString
    rw [hds]
    simp [hl]

/-- C3: if the string decodes to the 8 bytes `d0 .. d7`, `WaveDataFromHex`
succeeds, slot `i` has `Frequency = d_i` clamped into 10..240 and
`Strength = min d_(i+4) 100`; and `"0A0A0A0A64646464"` gives four slots
`{Frequency: 10, Strength: 100}`. -/
theorem waveDataFromHex_slots (hexStr : String) (d0 d1 d2 d3 d4 d5 d6 d7 : Byte)
    (h : hex.DecodeString hexStr = .ok [d0, d1, d2, d3, d4, d5, d6, d7]) :
    (∃ waves, WaveDataFromHex hexStr = .ok waves ∧
      ((waves 0).Frequency.val = max 10 (min d0.val 240) ∧ (waves 0).Strength.val = min d4.val 100) ∧
      ((waves 1).Frequency.val = max 10 (min d1.val 240) ∧ (waves 1).Strength.val = min d5.val 100) ∧
      ((waves 2).Frequency.val = max 10 (min d2.val 240) ∧ (waves 2).Strength.val = min d6.val 100) ∧
      ((waves 3).Frequency.val = max 10 (min d3.val 240) ∧ (waves 3).Strength.val = min d7.val 100)) ∧
    (∃ waves, WaveDataFromHex "0A0A0A0A64646464" = .ok waves ∧
      ∀ i, waves i = { Frequency := 10, Strength := 100 }) := by
  have hf : ∀ d : Byte,
      (if d < 10 then (10 : Byte) else if d > 240 then 240 else d).val = max 10 (min d.val 240) := by
    intro d
    split_ifs with h1 h2
    · have : d.val < 10 := h1
      show 10 = _
      omega
    · have : 240 < d.val := h2
      show 240 = _
      omega
    · have h1' : ¬ d.val < 10 := h1
      have h2' : ¬ 240 < d.val := h2
      omega
  have hs : ∀ d : Byte, (if d > 100 then (100 : Byte) else d).val = min d.val 100 := by
    intro d
    split_ifs with h1
    · have : 100 < d.val := h1
      show 100 = _
      omega
    · have h1' : ¬ 100 < d.val := h1
      omega
  refine ⟨⟨_, by simp only [WaveDataFromHex, h]; rfl, ?_⟩, ⟨_, rfl, by decide⟩⟩
  simp only [slots, List.foldl, List.getD_cons_zero, List.getD_cons_succ, Fin.val_zero]
  refine ⟨⟨?_, ?_⟩, ⟨?_, ?_⟩, ⟨?_, ?_⟩, ⟨?_, ?_⟩⟩ <;>
    simp [Function.update, List.getD, hf, hs, show ((3 : Fin 4) : Nat) = 3 from rfl]

/-- Witness for C3: `"FF00F10528C86400"` decodes to
`255, 0, 241, 5, 40, 200, 100, 0`. -/
theorem waveDataFromHex_slots_witness :
    (∃ waves, WaveDataFromHex "FF00F10528C86400" = .ok waves ∧
      ((waves 0).Frequency.val = max 10 (min 255 240) ∧ (waves 0).Strength.val = min 40 100) ∧
      ((waves 1).Frequency.val = max 10 (min 0 240) ∧ (waves 1).Strength.val = min 200 100) ∧
      ((waves 2).Frequency.val = max 10 (min 241 240) ∧ (waves 2).Strength.val = min 100 100) ∧
      ((waves 3).Frequency.val = max 10 (min 5 240) ∧ (waves 3).Strength.val = min 0 100)) ∧
    (∃ waves, WaveDataFromHex "0A0A0A0A64646464" = .ok waves ∧
      ∀ i, waves i = { Frequency := 10, Strength := 100 }) :=
  waveDataFromHex_slots "FF00F10528C86400" 255 0 241 5 40 200 100 0 rfl

/-- C4: `WaveDataFromHex` returns the length error whenever the string
decodes to a number of bytes other than 8, passes on the decoder's error
whenever the string does not decode, which is the case for every string
that is not an even number of hexadecimal digits, and succeeds on every
string of exactly 16 hexadecimal digits. -/
theorem waveDataFromHex_errors (hexStr : String) :
    (∀ data, hex.DecodeString hexStr = .ok data → data.length ≠ 8 →
      WaveDataFromHex hexStr = .error (.waveLength data.length)) ∧
    (∀ e, hex.DecodeString hexStr = .error e →
      WaveDataFromHex hexStr = .error (.hexError e)) ∧
    (¬ (hexStr.length % 2 = 0 ∧ ∀ c ∈ hexStr.data, c ∈ "0123456789abcdefABCDEF".toList) →
      ∃ e, WaveDataFromHex hexStr = .error (.hexError e)) ∧
    (hexStr.length = 16 → (∀ c ∈ hexStr.data, c ∈ "0123456789abcdefABCDEF".toList) →
      ∃ waves, WaveDataFromHex hexStr = .ok waves) := by
  refine ⟨?_, ?_, ?_, ?_⟩
  · intro data hd hlen
    simp only [WaveDataFromHex, hd]
    rw [if_pos hlen]
  · intro e hd
    simp only [WaveDataFromHex, hd]
  · intro hbad
    cases hd : hex.DecodeString hexStr with
    | error e => exact ⟨e, by simp only [WaveDataFromHex, hd]⟩
    | ok data =>
      exfalso
      apply hbad
      obtain ⟨hl, hall⟩ := decode_ok_inv _ _ hd
      have hdig := digits_of_bytes hexStr hall
      have hbl := (digits_bytes hexStr.data hdig).1
      rw [← stringBytes_eq] at hbl
      refine ⟨?_, hdig⟩
      show hexStr.data.length % 2 = 0
      omega
  · intro hlen hdig
    exact (waveDataFromHex_ok_iff hexStr).mpr ⟨hlen, hdig⟩

/-- Witness for C4: four digits give the length error with length 2, a
string with the letter `G` gives the decoder's error, sixteen digits
succeed. -/
theorem waveDataFromHex_errors_witness :
    WaveDataFromHex "0A64" = .error (.waveLength 2) ∧
    WaveDataFromHex "0G0A0A0A64646464" = .error (.hexError (.InvalidByteError 71)) ∧
    (∃ e, WaveDataFromHex "0A0A0A0A6464646" = .error (.hexError e)) ∧
    (∃ waves, WaveDataFromHex "0a0A0A0A64646464" = .ok waves) :=
  ⟨(waveDataFromHex_errors "0A64").1 [10, 100] rfl (by decide),
    (waveDataFromHex_errors "0G0A0A0A64646464").2.1 _ rfl,
    (waveDataFromHex_errors "0A0A0A0A6464646").2.2.1 (by decide),
    (waveDataFromHex_errors "0a0A0A0A64646464").2.2.2 (by decide) (by decide)⟩

/-- The value of `byte(x)` for an `int` already in the byte range. -/
theorem byteOfInt_val (x : Int) (h0 : 0 ≤ x) (h1 : x ≤ 255) : ((byteOfInt x).val : Int) = x := by
  simp only [byteOfInt, byteOfNat]
  omega

/-- C5: `ConvertFrequency` is the identity on 10..100, `100 + (input-100)/5`
on 101..600, `200 + (input-600)/10` on 601..1000 and 10 elsewhere; the
result is always in 10..240; the four sample values. -/
theorem convertFrequency_segments (input : Int) :
    (10 ≤ input → input ≤ 100 → ((ConvertFrequency input).val : Int) = input) ∧
    (101 ≤ input → input ≤ 600 →
      ((ConvertFrequency input).val : Int) = 100 + (input - 100) / 5) ∧
    (601 ≤ input → input ≤ 1000 →
      ((ConvertFrequency input).val : Int) = 200 + (input - 600) / 10) ∧
    (input < 10 ∨ 1000 < input → ConvertFrequency input = 10) ∧
    (10 ≤ (ConvertFrequency input).val ∧ (ConvertFrequency input).val ≤ 240) ∧
    ConvertFrequency 50 = 50 ∧ ConvertFrequency 150 = 110 ∧
    ConvertFrequency 700 = 210 ∧ ConvertFrequency 5 = 10 := by
  have seg1 : 10 ≤ input → input ≤ 100 → ((ConvertFrequency input).val : Int) = input := by
    intro h1 h2
    unfold ConvertFrequency
    rw [if_pos ⟨h1, h2⟩]
    exact byteOfInt_val _ (by omega) (by omega)
  have seg2 : 101 ≤ input → input ≤ 600 →
      ((ConvertFrequency input).val : Int) = 100 + (input - 100) / 5 := by
    intro h1 h2
    unfold ConvertFrequency
    rw [if_neg (by omega), if_pos ⟨h1, h2⟩,
      Int.tdiv_eq_ediv (by omega : (0 : Int) ≤ input - 100) (by omega : (0 : Int) ≤ 5)]
    rw [byteOfInt_val _ (by omega) (by omega)]
    omega
  have seg3 : 601 ≤ input → input ≤ 1000 →
      ((ConvertFrequency input).val : Int) = 200 + (input - 600) / 10 := by
    intro h1 h2
    unfold ConvertFrequency
    rw [if_neg (by omega), if_neg (by omega), if_pos ⟨h1, h2⟩,
      Int.tdiv_eq_ediv (by omega : (0 : Int) ≤ input - 600) (by omega : (0 : Int) ≤ 10)]
    rw [byteOfInt_val _ (by omega) (by omega)]
    omega
  have seg4 : input < 10 ∨ 1000 < input → ConvertFrequency input = 10 := by
    intro h
    unfold ConvertFrequency
    rw [if_neg (by omega), if_neg (by omega), if_neg (by omega)]
  refine ⟨seg1, seg2, seg3, seg4, ?_, by decide, by decide, by decide, by decide⟩
  by_cases c1 : 10 ≤ input ∧ input ≤ 100
  · have := seg1 c1.1 c1.2
    omega
  · by_cases c2 : 101 ≤ input ∧ input ≤ 600
    · have := seg2 c2.1 c2.2
      omega
    · by_cases c3 : 601 ≤ input ∧ input ≤ 1000
      · have := seg3 c3.1 c3.2
        omega
      · rw [seg4 (by omega)]
        decide

/-- Witness for C5 at the segment ends 100, 600, 1000 and beyond. -/
theorem convertFrequency_segments_witness :
    ((ConvertFrequency 100).val : Int) = 100 ∧
    ((ConvertFrequency 600).val : Int) = 100 + (600 - 100) / 5 ∧
    ((ConvertFrequency 1000).val : Int) = 200 + (1000 - 600) / 10 ∧
    ConvertFrequency 1001 = 10 ∧ ConvertFrequency (-3) = 10 :=
  ⟨(convertFrequency_segments 100).1 (by decide) (by decide),
    (convertFrequency_segments 600).2.1 (by decide) (by decide),
    (convertFrequency_segments 1000).2.2.1 (by decide) (by decide),
    (convertFrequency_segments 1001).2.2.2.1 (Or.inr (by decide)),
    (convertFrequency_segments (-3)).2.2.2.1 (Or.inl (by decide))⟩

/-- C6: `ValidateStrength` is 0 below 0, 200 above 200, the input itself in
between, hence always in 0..200; the two sample values. -/
theorem validateStrength_clamp (s : Int) :
    (s < 0 → ValidateStrength s = 0) ∧
    (200 < s → ValidateStrength s = 200) ∧
    (0 ≤ s → s ≤ 200 → ((ValidateStrength s).val : Int) = s) ∧
    (ValidateStrength s).val ≤ 200 ∧
    ValidateStrength (-5) = 0 ∧ ValidateStrength 250 = 200 := by
  have c1 : s < 0 → ValidateStrength s = 0 := by
    intro h
    unfold ValidateStrength
    rw [if_pos h]
  have c2 : 200 < s → ValidateStrength s = 200 := by
    intro h
    unfold ValidateStrength
    rw [if_neg (by omega), if_pos h]
  have c3 : 0 ≤ s → s ≤ 200 → ((ValidateStrength s).val : Int) = s := by
    intro h0 h1
    unfold ValidateStrength
    rw [if_neg (by omega), if_neg (by omega)]
    exact byteOfInt_val _ h0 (by omega)
  refine ⟨c1, c2, c3, ?_, by decide, by decide⟩
  by_cases h0 : s < 0
  · rw [c1 h0]; decide
  · by_cases h1 : 200 < s
    · rw [c2 h1]; decide
    · have := c3 (by omega) (by omega)
      omega

/-- Witness for C6 at -1, 201 and 137. -/
theorem validateStrength_clamp_witness :
    ValidateStrength (-1) = 0 ∧ ValidateStrength 201 = 200 ∧
    ((ValidateStrength 137).val : Int) = 137 :=
  ⟨(validateStrength_clamp (-1)).1 (by decide), (validateStrength_clamp 201).2.1 (by decide),
    (validateStrength_clamp 137).2.2.1 (by decide) (by decide)⟩

/-! ## Theorems: channel controller -/

open coyote

/-- The clamp of `ValidateStrength` as a number. -/
theorem validateStrength_val (s : Int) :
    ((ValidateStrength s).val : Int) = max 0 (min s 200) := by
  unfold ValidateStrength
  split_ifs with h0 h1
  · show (0 : Int) = _
    omega
  · show (200 : Int) = _
    omega
  · rw [byteOfInt_val _ (by omega) (by omega)]
    omega

/-- A sum that fits a Go `int` is not changed by the wrap-around. -/
theorem wrapInt_of_fits (x : Int) (h0 : minInt ≤ x) (h1 : x ≤ maxInt) : wrapInt x = x := by
  simp only [wrapInt, minInt, maxInt, intBits] at *
  omega

/-- Building a frame changes only the sequence counter. -/
theorem build_fst (c : Controller) :
    c.buildB0Command.1.channelState = c.channelState ∧
    c.buildB0Command.1.btAdapter = c.btAdapter ∧
    c.buildB0Command.1.pulseManager = c.pulseManager :=
  ⟨rfl, rfl, rfl⟩

/-- Sending a frame changes neither the channel state nor the counter. -/
theorem send_fst (c : Controller) (cmd : B0Command) (writeOk : Bool) :
    (c.sendCommand cmd writeOk).1.channelState = c.channelState ∧
    (c.sendCommand cmd writeOk).1.sequence = c.sequence := by
  unfold Controller.sendCommand
  dsimp only
  split <;> exact ⟨rfl, rfl⟩

/-- The channel tokens of the `"A", "a"` arm. -/
theorem isA_of (channel : String) (h : channel = "A" ∨ channel = "a") :
    isA channel = true ∧ isB channel = false := by
  rcases h with rfl | rfl <;> exact ⟨by decide, by decide⟩

/-- The channel tokens of the `"B", "b"` arm. -/
theorem isB_of (channel : String) (h : channel = "B" ∨ channel = "b") :
    isA channel = false ∧ isB channel = true := by
  rcases h with rfl | rfl <;> exact ⟨by decide, by decide⟩

/-- The channel state left by `SetStrength` on a connected controller. -/
theorem setStrength_state (c : Controller) (channel : String) (value : Int) (writeOk : Bool)
    (hconn : c.btAdapter.IsConnected = true) :
    (c.SetStrength channel value writeOk).1.channelState =
      if isA channel then
        { c.channelState with
          AStrength := min (max 0 (min value 200)) c.channelState.ALimit }
      else if isB channel then
        { c.channelState with
          BStrength := min (max 0 (min value 200)) c.channelState.BLimit }
      else c.channelState := by
  have hmin : ∀ a b : Int, (if a > b then b else a) = min a b := by
    intro a b
    split_ifs <;> omega
  unfold Controller.SetStrength
  simp only [hconn, Bool.not_true, Bool.false_eq_true, if_false]
  cases hA : isA channel
  · cases hB : isB channel
    · simp only [Bool.false_eq_true, if_false]
    · simp only [Bool.false_eq_true, if_false, if_true, (send_fst _ _ _).1, (build_fst _).1,
        hmin, validateStrength_val]
  · simp only [if_true, (send_fst _ _ _).1, (build_fst _).1, hmin, validateStrength_val]

/-- C7: on a connected controller `SetStrength` stores, for the channel
named, `min c limit` where `c` is the value clamped into 0..200 and `limit`
the channel's current limit; `SetStrength("A", 300)` with `ALimit = 100`
stores `AStrength = 100`. -/
theorem setStrength_stores (c : Controller) (channel : String) (value : Int) (writeOk : Bool)
    (hconn : c.btAdapter.IsConnected = true) :
    (channel = "A" ∨ channel = "a" →
      (c.SetStrength channel value writeOk).1.channelState.AStrength =
        min (max 0 (min value 200)) c.channelState.ALimit) ∧
    (channel = "B" ∨ channel = "b" →
      (c.SetStrength channel value writeOk).1.channelState.BStrength =
        min (max 0 (min value 200)) c.channelState.BLimit) ∧
    (c.channelState.ALimit = 100 →
      (c.SetStrength "A" 300 writeOk).1.channelState.AStrength = 100) := by
  refine ⟨?_, ?_, ?_⟩
  · intro h
    rw [setStrength_state c channel value writeOk hconn, if_pos (isA_of channel h).1]
  · intro h
    rw [setStrength_state c channel value writeOk hconn, (isB_of channel h).1,
      if_pos (isB_of channel h).2]
    simp
  · intro h
    rw [setStrength_state c "A" 300 writeOk hconn, if_pos (by decide)]
    show min (max 0 (min 300 200)) c.channelState.ALimit = 100
    rw [h]
    decide

/-- Witness for C7: channel A at 10, channel B at 0, both limits 100. -/
theorem setStrength_stores_witness :
    ((connectedAt 10 0 100 100).SetStrength "a" 55 true).1.channelState.AStrength
        = min (max 0 (min 55 200)) 100 ∧
    ((connectedAt 10 0 100 100).SetStrength "B" (-7) false).1.channelState.BStrength
        = min (max 0 (min (-7) 200)) 100 ∧
    ((connectedAt 10 0 100 100).SetStrength "A" 300 true).1.channelState.AStrength = 100 :=
  ⟨(setStrength_stores (connectedAt 10 0 100 100) "a" 55 true rfl).1 (Or.inr rfl),
    (setStrength_stores (connectedAt 10 0 100 100) "B" (-7) false rfl).2.1 (Or.inl rfl),
    (setStrength_stores (connectedAt 10 0 100 100) "A" 300 true rfl).2.2 rfl⟩

/-- The channel state left by `AddStrength` on a connected controller. -/
theorem addStrength_state (c : Controller) (channel : String) (delta : Int) (writeOk : Bool)
    (hconn : c.btAdapter.IsConnected = true) :
    (c.AddStrength channel delta writeOk).1.channelState =
      if isA channel then
        { c.channelState with
          AStrength :=
            if max 0 (min (max (wrapInt (c.channelState.AStrength + delta)) 0) 200)
                > c.channelState.ALimit then 20
            else max 0 (min (max (wrapInt (c.channelState.AStrength + delta)) 0) 200) }
      else if isB channel then
        { c.channelState with
          BStrength :=
            if max 0 (min (max (wrapInt (c.channelState.BStrength + delta)) 0) 200)
                > c.channelState.BLimit then 20
            else max 0 (min (max (wrapInt (c.channelState.BStrength + delta)) 0) 200) }
      else c.channelState := by
  have hfloor : ∀ a : Int, (if a < 0 then 0 else a) = max a 0 := by
    intro a
    split_ifs <;> omega
  unfold Controller.AddStrength
  simp only [hconn, Bool.not_true, Bool.false_eq_true, if_false]
  cases hA : isA channel
  · cases hB : isB channel
    · simp only [Bool.false_eq_true, if_false]
    · simp only [Bool.false_eq_true, if_false, if_true, (send_fst _ _ _).1, (build_fst _).1,
        hfloor, validateStrength_val]
  · simp only [if_true, (send_fst _ _ _).1, (build_fst _).1, hfloor, validateStrength_val]

/-- C8: on a connected controller `AddStrength` computes
`n = current + delta` (the Go `int` sum), floored at 0 and clamped into
0..200, and stores 20 if `n` exceeds the channel's limit, `n` otherwise;
the Go sum is the mathematical sum whenever that fits a Go `int`;
`AddStrength("A", 50)` with current 80 and limit 100 stores 20. -/
theorem addStrength_stores (c : Controller) (channel : String) (delta : Int) (writeOk : Bool)
    (hconn : c.btAdapter.IsConnected = true) :
    (channel = "A" ∨ channel = "a" →
      (c.AddStrength channel delta writeOk).1.channelState.AStrength =
        if max 0 (min (max (wrapInt (c.channelState.AStrength + delta)) 0) 200)
            > c.channelState.ALimit then 20
        else max 0 (min (max (wrapInt (c.channelState.AStrength + delta)) 0) 200)) ∧
    (channel = "B" ∨ channel = "b" →
      (c.AddStrength channel delta writeOk).1.channelState.BStrength =
        if max 0 (min (max (wrapInt (c.channelState.BStrength + delta)) 0) 200)
            > c.channelState.BLimit then 20
        else max 0 (min (max (wrapInt (c.channelState.BStrength + delta)) 0) 200)) ∧
    (∀ current : Int, minInt ≤ current + delta → current + delta ≤ maxInt →
      wrapInt (current + delta) = current + delta) ∧
    (c.channelState.AStrength = 80 → c.channelState.ALimit = 100 →
      (c.AddStrength "A" 50 writeOk).1.channelState.AStrength = 20) := by
  refine ⟨?_, ?_, ?_, ?_⟩
  · intro h
    rw [addStrength_state c channel delta writeOk hconn, if_pos (isA_of channel h).1]
  · intro h
    rw [addStrength_state c channel delta writeOk hconn, (isB_of channel h).1,
      if_pos (isB_of channel h).2]
    simp
  · intro current h0 h1
    exact wrapInt_of_fits _ h0 h1
  · intro hs hl
    rw [addStrength_state c "A" 50 writeOk hconn, if_pos (by decide)]
    show (if max 0 (min (max (wrapInt (c.channelState.AStrength + 50)) 0) 200)
      > c.channelState.ALimit then 20
      else max 0 (min (max (wrapInt (c.channelState.AStrength + 50)) 0) 200)) = 20
    rw [hs, hl]
    decide

/-- Witness for C8: adding 15 to channel a at 80 stores 95, adding 150 to
channel B at 60 with limit 100 stores 20, and the sample of the claim. -/
theorem addStrength_stores_witness :
    ((connectedAt 80 60 100 100).AddStrength "a" 15 true).1.channelState.AStrength
        = (if max 0 (min (max (wrapInt (80 + 15)) 0) 200) > 100 then 20
          else max 0 (min (max (wrapInt (80 + 15)) 0) 200)) ∧
    ((connectedAt 80 60 100 100).AddStrength "B" 150 false).1.channelState.BStrength
        = (if max 0 (min (max (wrapInt (60 + 150)) 0) 200) > 100 then 20
          else max 0 (min (max (wrapInt (60 + 150)) 0) 200)) ∧
    wrapInt (80 + 15) = 80 + 15 ∧
    ((connectedAt 80 60 100 100).AddStrength "A" 50 true).1.channelState.AStrength = 20 :=
  ⟨(addStrength_stores (connectedAt 80 60 100 100) "a" 15 true rfl).1 (Or.inr rfl),
    (addStrength_stores (connectedAt 80 60 100 100) "B" 150 false rfl).2.1 (Or.inl rfl),
    (addStrength_stores (connectedAt 80 60 100 100) "a" 15 true rfl).2.2.1 80
      (by decide) (by decide),
    (addStrength_stores (connectedAt 80 60 100 100) "A" 50 true rfl).2.2.2 rfl rfl⟩

/-- A successful write on a connected adapter appends the encoded frame to
the wire. -/
theorem send_wire (c : Controller) (cmd : B0Command) (hconn : c.btAdapter.IsConnected = true) :
    (c.sendCommand cmd true).1.btAdapter.wire = c.btAdapter.wire ++ [cmd.ToBytes] := by
  have hc : c.btAdapter.connected = true := hconn
  simp [Controller.sendCommand, bluetooth.BluetoothAdapter.WriteCharacteristic, hc]

/-- The strength byte that `setAbsolute` puts into the frame. -/
theorem setAbsolute_bytes (cmd : B0Command) (channel : String) (strength : Int) :
    (isA channel = true →
      (setAbsolute cmd channel strength).ToBytes[2]? = some (byteOfInt strength)) ∧
    (isA channel = false → isB channel = true →
      (setAbsolute cmd channel strength).ToBytes[3]? = some (byteOfInt strength)) := by
  constructor
  · intro hA
    rw [toBytes_eq]
    simp [setAbsolute, hA]
  · intro hA hB
    rw [toBytes_eq]
    simp [setAbsolute, hA, hB]

/-- The channel state left by `SubStrength` on a connected controller, and
the frame it hands to the adapter. -/
theorem subStrength_state (c : Controller) (channel : String) (delta : Int) (writeOk : Bool)
    (hconn : c.btAdapter.IsConnected = true) :
    (isA channel = true →
      (c.SubStrength channel delta writeOk).1.channelState =
        { c.channelState with
          AStrength := max 0 (min (max (wrapInt (c.channelState.AStrength - delta)) 0) 200) } ∧
      ∃ cmd, (c.SubStrength channel delta true).1.btAdapter.wire = c.btAdapter.wire ++
        [(setAbsolute cmd channel
          (max 0 (min (max (wrapInt (c.channelState.AStrength - delta)) 0) 200))).ToBytes]) ∧
    (isA channel = false → isB channel = true →
      (c.SubStrength channel delta writeOk).1.channelState =
        { c.channelState with
          BStrength := max 0 (min (max (wrapInt (c.channelState.BStrength - delta)) 0) 200) } ∧
      ∃ cmd, (c.SubStrength channel delta true).1.btAdapter.wire = c.btAdapter.wire ++
        [(setAbsolute cmd channel
          (max 0 (min (max (wrapInt (c.channelState.BStrength - delta)) 0) 200))).ToBytes]) := by
  have hfloor : ∀ a : Int, (if a < 0 then 0 else a) = max a 0 := by
    intro a
    split_ifs <;> omega
  constructor
  · intro hA
    unfold Controller.SubStrength
    simp only [hconn, hA, Bool.not_true, Bool.false_eq_true, if_false, if_true,
      (send_fst _ _ _).1, (build_fst _).1, hfloor, validateStrength_val, true_and]
    exact ⟨_, send_wire _ _ (by rw [(build_fst _).2.1]; exact hconn)⟩
  · intro hA hB
    unfold Controller.SubStrength
    simp only [hconn, hA, hB, Bool.not_true, Bool.false_eq_true, if_false, if_true,
      (send_fst _ _ _).1, (build_fst _).1, hfloor, validateStrength_val, true_and]
    exact ⟨_, send_wire _ _ (by rw [(build_fst _).2.1]; exact hconn)⟩

/-- C9, counterexample: with channel A at 50 and limit 100,
`SubStrength("A", -100)` computes `n = 150`, which exceeds the limit, and
the value stored and sent is 150, not 20. -/
theorem subStrength_forced_counterexample :
    (connectedAt 50 0 100 100).btAdapter.IsConnected = true ∧
    max 0 (min (max (wrapInt (50 - (-100))) 0) 200) > (100 : Int) ∧
    ((connectedAt 50 0 100 100).SubStrength "A" (-100) true).1.channelState.AStrength = 150 ∧
    ((connectedAt 50 0 100 100).SubStrength "A" (-100) true).1.btAdapter.wire =
      [[0xB0, 0x1C, 150, 0, 10, 10, 10, 10, 0, 0, 0, 0, 10, 10, 10, 10, 0, 0, 0, 0]] ∧
    ¬ (((connectedAt 50 0 100 100).SubStrength "A" (-100) true).1.channelState.AStrength =
      if max 0 (min (max (wrapInt (50 - (-100))) 0) 200) > (100 : Int) then 20
      else max 0 (min (max (wrapInt (50 - (-100))) 0) 200)) := by
  decide

/-- C9, amended: on a connected controller `SubStrength` computes
`n = current - delta` (the Go `int` difference), floored at 0 and clamped
into 0..200; whenever `n` does not exceed the channel's limit the stored
strength is `n`, and the frame handed to a successful write carries `n` as
the channel's strength byte (byte 2 for A, byte 3 for B). -/
theorem subStrength_within_limit (c : Controller) (channel : String) (delta : Int)
    (writeOk : Bool) (hconn : c.btAdapter.IsConnected = true) :
    (channel = "A" ∨ channel = "a" →
      max 0 (min (max (wrapInt (c.channelState.AStrength - delta)) 0) 200)
        ≤ c.channelState.ALimit →
      (c.SubStrength channel delta writeOk).1.channelState.AStrength =
        max 0 (min (max (wrapInt (c.channelState.AStrength - delta)) 0) 200) ∧
      ∃ frame strength,
        (c.SubStrength channel delta true).1.btAdapter.wire = c.btAdapter.wire ++ [frame] ∧
        frame[2]? = some strength ∧
        ((strength.val : Nat) : Int) =
          max 0 (min (max (wrapInt (c.channelState.AStrength - delta)) 0) 200)) ∧
    (channel = "B" ∨ channel = "b" →
      max 0 (min (max (wrapInt (c.channelState.BStrength - delta)) 0) 200)
        ≤ c.channelState.BLimit →
      (c.SubStrength channel delta writeOk).1.channelState.BStrength =
        max 0 (min (max (wrapInt (c.channelState.BStrength - delta)) 0) 200) ∧
      ∃ frame strength,
        (c.SubStrength channel delta true).1.btAdapter.wire = c.btAdapter.wire ++ [frame] ∧
        frame[3]? = some strength ∧
        ((strength.val : Nat) : Int) =
          max 0 (min (max (wrapInt (c.channelState.BStrength - delta)) 0) 200)) := by
  constructor
  · intro h _
    obtain ⟨hA, _⟩ := isA_of channel h
    obtain ⟨hst, cmd, hw⟩ := (subStrength_state c channel delta writeOk hconn).1 hA
    refine ⟨by rw [hst], _, _, hw, (setAbsolute_bytes cmd channel _).1 hA, ?_⟩
    exact byteOfInt_val _ (by omega) (by omega)
  · intro h _
    obtain ⟨hA, hB⟩ := isB_of channel h
    obtain ⟨hst, cmd, hw⟩ := (subStrength_state c channel delta writeOk hconn).2 hA hB
    refine ⟨by rw [hst], _, _, hw, (setAbsolute_bytes cmd channel _).2 hA hB, ?_⟩
    exact byteOfInt_val _ (by omega) (by omega)

/-- Witness for C9 as amended: subtracting 30 from channel A at 80 and 500
from channel B at 60, both limits 100. -/
theorem subStrength_within_limit_witness :
    (((connectedAt 80 60 100 100).SubStrength "A" 30 false).1.channelState.AStrength =
        max 0 (min (max (wrapInt (80 - 30)) 0) 200) ∧
      ∃ frame strength,
        ((connectedAt 80 60 100 100).SubStrength "A" 30 true).1.btAdapter.wire = [] ++ [frame] ∧
        frame[2]? = some strength ∧
        ((strength.val : Nat) : Int) = max 0 (min (max (wrapInt (80 - 30)) 0) 200)) ∧
    (((connectedAt 80 60 100 100).SubStrength "b" 500 true).1.channelState.BStrength =
        max 0 (min (max (wrapInt (60 - 500)) 0) 200) ∧
      ∃ frame strength,
        ((connectedAt 80 60 100 100).SubStrength "b" 500 true).1.btAdapter.wire = [] ++ [frame] ∧
        frame[3]? = some strength ∧
        ((strength.val : Nat) : Int) = max 0 (min (max (wrapInt (60 - 500)) 0) 200)) :=
  ⟨(subStrength_within_limit (connectedAt 80 60 100 100) "A" 30 false rfl).1 (Or.inl rfl)
      (by decide),
    (subStrength_within_limit (connectedAt 80 60 100 100) "b" 500 true rfl).2 (Or.inr rfl)
      (by decide)⟩

/-- The limit invariant is kept by `SetStrength`, `SetLimit` and `SetPulse`
from every state, connected or not. -/
theorem limit_invariant_kept (c : Controller) (channel : String) (value : Int) (writeOk : Bool)
    (id : String)
    (hinv : c.channelState.AStrength ≤ c.channelState.ALimit ∧
      c.channelState.BStrength ≤ c.channelState.BLimit) :
    ((c.SetStrength channel value writeOk).1.channelState.AStrength
        ≤ (c.SetStrength channel value writeOk).1.channelState.ALimit ∧
      (c.SetStrength channel value writeOk).1.channelState.BStrength
        ≤ (c.SetStrength channel value writeOk).1.channelState.BLimit) ∧
    ((c.SetLimit channel value).1.channelState.AStrength
        ≤ (c.SetLimit channel value).1.channelState.ALimit ∧
      (c.SetLimit channel value).1.channelState.BStrength
        ≤ (c.SetLimit channel value).1.channelState.BLimit) ∧
    ((c.SetPulse id).1.channelState.AStrength ≤ (c.SetPulse id).1.channelState.ALimit ∧
      (c.SetPulse id).1.channelState.BStrength ≤ (c.SetPulse id).1.channelState.BLimit) := by
  obtain ⟨hA, hB⟩ := hinv
  refine ⟨?_, ?_, ?_⟩
  · cases hconn : c.btAdapter.IsConnected
    · simp only [Controller.SetStrength, hconn, Bool.not_false, if_true]
      exact ⟨hA, hB⟩
    · rw [setStrength_state c channel value writeOk hconn]
      split_ifs
      · exact ⟨min_le_right _ _, hB⟩
      · exact ⟨hA, min_le_right _ _⟩
      · exact ⟨hA, hB⟩
  · unfold Controller.SetLimit
    simp only [validateStrength_val]
    split_ifs <;> simp only <;> constructor <;> omega
  · unfold Controller.SetPulse
    split <;> exact ⟨hA, hB⟩

/-- C10, failing inputs: from a state satisfying `AStrength ≤ ALimit` and
`BStrength ≤ BLimit`, `AddStrength("A", 10)` at strength 5 with limit 10
leaves `AStrength = 20` above `ALimit = 10`, and `SubStrength("A", -100)`
at strength 50 with limit 100 leaves `AStrength = 150` above
`ALimit = 100`. -/
theorem limit_invariant_broken :
    ((connectedAt 5 0 10 100).channelState.AStrength ≤ (connectedAt 5 0 10 100).channelState.ALimit ∧
      (connectedAt 5 0 10 100).channelState.BStrength ≤ (connectedAt 5 0 10 100).channelState.BLimit ∧
      ((connectedAt 5 0 10 100).AddStrength "A" 10 true).1.channelState.AStrength = 20 ∧
      ((connectedAt 5 0 10 100).AddStrength "A" 10 true).1.channelState.ALimit = 10) ∧
    ((connectedAt 50 0 100 100).channelState.AStrength
        ≤ (connectedAt 50 0 100 100).channelState.ALimit ∧
      (connectedAt 50 0 100 100).channelState.BStrength
        ≤ (connectedAt 50 0 100 100).channelState.BLimit ∧
      ((connectedAt 50 0 100 100).SubStrength "A" (-100) true).1.channelState.AStrength = 150 ∧
      ((connectedAt 50 0 100 100).SubStrength "A" (-100) true).1.channelState.ALimit = 100) := by
  decide

/-! ## Theorems: limits, patterns and the connection guard -/

/-- C11: for channel A or B and every integer value, connected or not,
`SetLimit` returns no error and changes exactly two fields: the channel's
limit becomes the value clamped into 0..200 and the channel's strength
becomes the minimum of the old strength and the new limit; the adapter
(nothing is written), the sequence counter, the pattern store and the other
channel's fields are as before; `SetLimit("A", 30)` at `AStrength = 80`
leaves `AStrength = 30`. -/
theorem setLimit_result (c : Controller) (channel : String) (value : Int) :
    (channel = "A" ∨ channel = "a" →
      c.SetLimit channel value =
        ({ c with
            channelState :=
              { c.channelState with
                ALimit := max 0 (min value 200)
                AStrength := min c.channelState.AStrength (max 0 (min value 200)) } },
          none)) ∧
    (channel = "B" ∨ channel = "b" →
      c.SetLimit channel value =
        ({ c with
            channelState :=
              { c.channelState with
                BLimit := max 0 (min value 200)
                BStrength := min c.channelState.BStrength (max 0 (min value 200)) } },
          none)) ∧
    (c.channelState.AStrength = 80 → (c.SetLimit "A" 30).1.channelState.AStrength = 30) := by
  have hmin : ∀ a b : Int, (if a > b then b else a) = min a b := by
    intro a b
    split_ifs <;> omega
  refine ⟨?_, ?_, ?_⟩
  · intro h
    unfold Controller.SetLimit
    simp only [(isA_of channel h).1, if_true, validateStrength_val]
    split_ifs with hgt
    · rw [min_eq_right (le_of_lt hgt)]
    · rw [min_eq_left (not_lt.mp hgt)]
  · intro h
    unfold Controller.SetLimit
    simp only [(isB_of channel h).1, (isB_of channel h).2, Bool.false_eq_true, if_false, if_true,
      validateStrength_val]
    split_ifs with hgt
    · rw [min_eq_right (le_of_lt hgt)]
    · rw [min_eq_left (not_lt.mp hgt)]
  · intro h
    unfold Controller.SetLimit
    simp only [show isA "A" = true from rfl, if_true, validateStrength_val, h]
    rw [if_pos (by decide)]
    show max (0 : Int) (min 30 200) = 30
    decide

/-- Witness for C11 on a fresh controller, which is not connected, and on a
connected one. -/
theorem setLimit_result_witness :
    freshDefault.SetLimit "a" 250 =
      ({ freshDefault with
          channelState :=
            { freshDefault.channelState with
              ALimit := max 0 (min 250 200)
              AStrength := min freshDefault.channelState.AStrength (max 0 (min 250 200)) } },
        none) ∧
    (connectedAt 80 60 100 100).SetLimit "B" (-4) =
      ({ connectedAt 80 60 100 100 with
          channelState :=
            { (connectedAt 80 60 100 100).channelState with
              BLimit := max 0 (min (-4) 200)
              BStrength :=
                min (connectedAt 80 60 100 100).channelState.BStrength
                  (max 0 (min (-4) 200)) } },
        none) ∧
    ((connectedAt 80 60 100 100).SetLimit "A" 30).1.channelState.AStrength = 30 :=
  ⟨(setLimit_result freshDefault "a" 250).1 (Or.inr rfl),
    (setLimit_result (connectedAt 80 60 100 100) "B" (-4)).2.1 (Or.inl rfl),
    (setLimit_result (connectedAt 80 60 100 100) "A" 30).2.2 rfl⟩

/-- A key without a binding is not found by `List.lookup`. -/
theorem lookup_absent (id : String) :
    ∀ l : List (String × pulse.PulseData), (∀ p, (id, p) ∉ l) → l.lookup id = none
  | [], _ => rfl
  | (k, v) :: l, h => by
    have hk : ¬ id = k := by
      intro hk
      exact h v (by simp [hk])
    have hb : (id == k) = false := by simpa using hk
    simp only [List.lookup, hb]
    exact lookup_absent id l (fun p hp => h p (by simp [hp]))

/-- A key with a binding is found by `List.lookup`. -/
theorem lookup_present (id : String) :
    ∀ l : List (String × pulse.PulseData), (∃ p, (id, p) ∈ l) → ∃ q, l.lookup id = some q
  | [], h => by
    obtain ⟨p, hp⟩ := h
    simp at hp
  | (k, v) :: l, h => by
    by_cases hk : id = k
    · have hb : (id == k) = true := by simpa using hk
      exact ⟨v, by simp only [List.lookup, hb]⟩
    · have hb : (id == k) = false := by simpa using hk
      obtain ⟨p, hp⟩ := h
      simp only [List.mem_cons, Prod.mk.injEq] at hp
      rcases hp with ⟨h1, _⟩ | hp
      · exact absurd h1 hk
      · obtain ⟨q, hq⟩ := lookup_present id l ⟨p, hp⟩
        exact ⟨q, by simp only [List.lookup, hb]; exact hq⟩

/-- C12: for an id with no entry in the pattern store `SetPulse` returns the
not-found error of `GetPulse` (wrapped) and leaves the whole controller,
`CurrentPulse` included, unchanged; for an id with an entry it returns no
error and changes `CurrentPulse` to the id and nothing else. -/
theorem setPulse_result (c : Controller) (id : String) :
    ((∀ p, (id, p) ∉ c.pulseManager.pulses) →
      c.SetPulse id = (c, some (.getPulseFailed (.notFound id)))) ∧
    ((∃ p, (id, p) ∈ c.pulseManager.pulses) →
      c.SetPulse id =
        ({ c with channelState := { c.channelState with CurrentPulse := id } }, none)) := by
  constructor
  · intro h
    simp only [Controller.SetPulse, pulse.Manager.GetPulse, lookup_absent id _ h]
  · intro h
    obtain ⟨q, hq⟩ := lookup_present id _ h
    simp only [Controller.SetPulse, pulse.Manager.GetPulse, hq]

/-- Witness for C12 on the built-in patterns: `"nope"` is absent,
`"eea0e4ce"` is present. -/
theorem setPulse_result_witness :
    (connectedAt 0 0 100 100).SetPulse "nope" =
      (connectedAt 0 0 100 100, some (.getPulseFailed (.notFound "nope"))) ∧
    (connectedAt 0 0 100 100).SetPulse "eea0e4ce" =
      ({ connectedAt 0 0 100 100 with
          channelState :=
            { (connectedAt 0 0 100 100).channelState with CurrentPulse := "eea0e4ce" } },
        none) :=
  ⟨(setPulse_result (connectedAt 0 0 100 100) "nope").1
      (fun p hp => by
        simp [connectedAt, pulse.NewDefaultManager, pulse.Manager.AddPulse] at hp),
    (setPulse_result (connectedAt 0 0 100 100) "eea0e4ce").2 ⟨_, List.mem_cons_self _ _⟩⟩

/-- C13: when the adapter is not connected, `SetStrength`, `AddStrength` and
`SubStrength` return the not-connected error for every channel string,
value and write outcome, and return the controller as it was: channel
state, sequence counter and wire unchanged. -/
theorem not_connected_guard (c : Controller) (channel : String) (value : Int) (writeOk : Bool)
    (hconn : c.btAdapter.IsConnected = false) :
    c.SetStrength channel value writeOk = (c, some .notConnected) ∧
    c.AddStrength channel value writeOk = (c, some .notConnected) ∧
    c.SubStrength channel value writeOk = (c, some .notConnected) := by
  refine ⟨?_, ?_, ?_⟩
  · simp only [Controller.SetStrength, hconn, Bool.not_false, if_true]
  · simp only [Controller.AddStrength, hconn, Bool.not_false, if_true]
  · simp only [Controller.SubStrength, hconn, Bool.not_false, if_true]

/-- Witness for C13: the controller that `NewController` returns for the
default configuration, which is not connected. -/
theorem not_connected_guard_witness :
    NewController config.DefaultConfig none true = .ok freshDefault ∧
    freshDefault.SetStrength "A" 50 true = (freshDefault, some .notConnected) ∧
    freshDefault.AddStrength "b" (-3) false = (freshDefault, some .notConnected) ∧
    freshDefault.SubStrength "x" 50 true = (freshDefault, some .notConnected) :=
  ⟨rfl, (not_connected_guard freshDefault "A" 50 true rfl).1,
    (not_connected_guard freshDefault "b" (-3) false rfl).2.1,
    (not_connected_guard freshDefault "x" 50 true rfl).2.2⟩

/-! ## Theorems: command frames -/

/-- The base frame takes the current counter as its sequence number and has
both modes `NoChange`. -/
theorem build_header (c : Controller) :
    c.buildB0Command.2.Sequence = c.sequence ∧
    c.buildB0Command.2.AMode = StrengthModeNoChange ∧
    c.buildB0Command.2.BMode = StrengthModeNoChange := by
  unfold Controller.buildB0Command
  dsimp only
  split
  · split <;> split <;> exact ⟨rfl, rfl, rfl⟩
  · exact ⟨rfl, rfl, rfl⟩

/-- The counter after a build, as a number: the successor, or 1 after 15. -/
theorem build_counter (c : Controller) (h1 : 1 ≤ c.sequence.val) (h15 : c.sequence.val ≤ 15) :
    c.buildB0Command.1.sequence.val = c.sequence.val % 15 + 1 := by
  have hs : c.buildB0Command.1.sequence =
      if byteOfNat (c.sequence.val + 1) > 15 then 1 else byteOfNat (c.sequence.val + 1) := rfl
  rw [hs]
  have hv : (byteOfNat (c.sequence.val + 1)).val = c.sequence.val + 1 := by
    simp only [byteOfNat]
    omega
  split_ifs with h
  · have h' : (15 : Nat) < (byteOfNat (c.sequence.val + 1)).val := h
    show 1 = _
    omega
  · have h' : ¬ (15 : Nat) < (byteOfNat (c.sequence.val + 1)).val := h
    omega

/-- The counter along a run that starts at 1 and changes only by builds. -/
theorem counter_along (cs : Nat → Controller) (h0 : (cs 0).sequence = 1)
    (hstep : ∀ n, (cs (n + 1)).sequence = (cs n).buildB0Command.1.sequence) :
    ∀ n, (cs n).sequence.val = n % 15 + 1
  | 0 => by rw [h0]; rfl
  | n + 1 => by
    have ih := counter_along cs h0 hstep n
    rw [hstep n, build_counter (cs n) (by omega) (by omega), ih]
    omega

/-- C14: let `cs n` be the controller at the moment its frame number `n+1`
is built, `cs 0` being the controller returned by `NewController`, and let
the counter change only by builds.  Then frame `k` carries sequence number
`(k-1) mod 15 + 1`, so frames 1..15 carry 1..15 and frame 16 carries 1
again, and the counter is within 1..15 throughout. -/
theorem sequence_cycle (cfg : config.Config) (loaded : Option pulse.Manager) (enableOk : Bool)
    (cs : Nat → Controller) (hnew : NewController cfg loaded enableOk = .ok (cs 0))
    (hstep : ∀ n, (cs (n + 1)).sequence = (cs n).buildB0Command.1.sequence) :
    (∀ k, 1 ≤ k → (cs (k - 1)).buildB0Command.2.Sequence.val = (k - 1) % 15 + 1) ∧
    (∀ k, 1 ≤ k → k ≤ 15 → (cs (k - 1)).buildB0Command.2.Sequence.val = k) ∧
    (cs 15).buildB0Command.2.Sequence.val = 1 ∧
    (∀ n, 1 ≤ (cs n).sequence.val ∧ (cs n).sequence.val ≤ 15) := by
  have h0 : (cs 0).sequence = 1 := by
    unfold NewController at hnew
    dsimp only at hnew
    split at hnew
    · simp at hnew
    · rw [← Except.ok.inj hnew]
  have hc := counter_along cs h0 hstep
  have hframe : ∀ n, (cs n).buildB0Command.2.Sequence.val = n % 15 + 1 := by
    intro n
    rw [(build_header (cs n)).1, hc n]
  refine ⟨fun k _ => hframe (k - 1), ?_, hframe 15, ?_⟩
  · intro k h1 h15
    rw [hframe (k - 1)]
    omega
  · intro n
    rw [hc n]
    omega

/-- Witness for C14: the run of the fresh default controller in which every
step is a build. -/
theorem sequence_cycle_witness :
    (∀ k, 1 ≤ k →
      ((fun c : Controller => c.buildB0Command.1)^[k - 1] freshDefault).buildB0Command.2.Sequence.val
        = (k - 1) % 15 + 1) ∧
    (∀ k, 1 ≤ k → k ≤ 15 →
      ((fun c : Controller => c.buildB0Command.1)^[k - 1] freshDefault).buildB0Command.2.Sequence.val
        = k) ∧
    ((fun c : Controller => c.buildB0Command.1)^[15] freshDefault).buildB0Command.2.Sequence.val
      = 1 ∧
    (∀ n, 1 ≤ ((fun c : Controller => c.buildB0Command.1)^[n] freshDefault).sequence.val ∧
      ((fun c : Controller => c.buildB0Command.1)^[n] freshDefault).sequence.val ≤ 15) :=
  sequence_cycle config.DefaultConfig none true
    (fun n => (fun c : Controller => c.buildB0Command.1)^[n] freshDefault)
    rfl
    (fun n => by
      show ((fun c : Controller => c.buildB0Command.1)^[n + 1] _).sequence = _
      rw [Function.iterate_succ_apply'])

/-- Every operation leaves the counter alone or advances it by one build. -/
theorem operations_counter (c : Controller) (channel : String) (value : Int) (writeOk : Bool)
    (id : String) :
    (c.SetLimit channel value).1.sequence = c.sequence ∧
    (c.SetPulse id).1.sequence = c.sequence ∧
    ∀ r ∈ [c.SetStrength channel value writeOk, c.AddStrength channel value writeOk,
        c.SubStrength channel value writeOk],
      r.1.sequence = c.sequence ∨ r.1.sequence = c.buildB0Command.1.sequence := by
  refine ⟨?_, ?_, ?_⟩
  · unfold Controller.SetLimit
    dsimp only
    split_ifs <;> rfl
  · unfold Controller.SetPulse
    split <;> rfl
  · intro r hr
    simp only [List.mem_cons, List.mem_singleton, List.not_mem_nil, or_false] at hr
    rcases hr with rfl | rfl | rfl
    · unfold Controller.SetStrength
      cases c.btAdapter.IsConnected <;> cases isA channel <;> cases isB channel <;>
        simp only [Bool.not_true, Bool.not_false, Bool.false_eq_true, if_true, if_false,
          (send_fst _ _ _).2] <;>
        first
          | exact Or.inl trivial
          | exact Or.inl rfl
          | exact Or.inr rfl
    · unfold Controller.AddStrength
      cases c.btAdapter.IsConnected <;> cases isA channel <;> cases isB channel <;>
        simp only [Bool.not_true, Bool.not_false, Bool.false_eq_true, if_true, if_false,
          (send_fst _ _ _).2] <;>
        first
          | exact Or.inl trivial
          | exact Or.inl rfl
          | exact Or.inr rfl
    · unfold Controller.SubStrength
      cases c.btAdapter.IsConnected <;> cases isA channel <;> cases isB channel <;>
        simp only [Bool.not_true, Bool.not_false, Bool.false_eq_true, if_true, if_false,
          (send_fst _ _ _).2] <;>
        first
          | exact Or.inl trivial
          | exact Or.inl rfl
          | exact Or.inr rfl

set_option maxRecDepth 100000 in
/-- The mode bits of byte 1 do not depend on the sequence number: with A
absolute and B unchanged they read 3 and 0, with B absolute and A unchanged
0 and 3. -/
theorem mode_bits (s : Byte) :
    ((byteOr (byteShl s 4) (byteOr (byteShl StrengthModeAbsolute 2) StrengthModeNoChange)).val
        >>> 2) &&& 3 = StrengthModeAbsolute.val ∧
    (byteOr (byteShl s 4) (byteOr (byteShl StrengthModeAbsolute 2) StrengthModeNoChange)).val
        &&& 3 = StrengthModeNoChange.val ∧
    ((byteOr (byteShl s 4) (byteOr (byteShl StrengthModeNoChange 2) StrengthModeAbsolute)).val
        >>> 2) &&& 3 = StrengthModeNoChange.val ∧
    (byteOr (byteShl s 4) (byteOr (byteShl StrengthModeNoChange 2) StrengthModeAbsolute)).val
        &&& 3 = StrengthModeAbsolute.val := by
  revert s
  decide

/-- The frame made from a base frame by `setAbsolute`: mode bits and
strength byte of the touched channel. -/
theorem absolute_frame (c : Controller) (channel : String) (strength : Int) :
    (isA channel = true →
      ∃ b1, (setAbsolute c.buildB0Command.2 channel strength).ToBytes[1]? = some b1 ∧
        (b1.val >>> 2) &&& 3 = StrengthModeAbsolute.val ∧
        b1.val &&& 3 = StrengthModeNoChange.val ∧
        (setAbsolute c.buildB0Command.2 channel strength).ToBytes[2]?
          = some (byteOfInt strength)) ∧
    (isA channel = false → isB channel = true →
      ∃ b1, (setAbsolute c.buildB0Command.2 channel strength).ToBytes[1]? = some b1 ∧
        (b1.val >>> 2) &&& 3 = StrengthModeNoChange.val ∧
        b1.val &&& 3 = StrengthModeAbsolute.val ∧
        (setAbsolute c.buildB0Command.2 channel strength).ToBytes[3]?
          = some (byteOfInt strength)) := by
  obtain ⟨_, hA0, hB0⟩ := build_header c
  constructor
  · intro hA
    have hm := mode_bits (setAbsolute c.buildB0Command.2 channel strength).Sequence
    refine ⟨_, by rw [toBytes_eq]; rfl, ?_, ?_, (setAbsolute_bytes _ _ _).1 hA⟩
    · simp only [setAbsolute, hA, if_true, hB0] at hm ⊢
      exact hm.1
    · simp only [setAbsolute, hA, if_true, hB0] at hm ⊢
      exact hm.2.1
  · intro hA hB
    have hm := mode_bits (setAbsolute c.buildB0Command.2 channel strength).Sequence
    refine ⟨_, by rw [toBytes_eq]; rfl, ?_, ?_, (setAbsolute_bytes _ _ _).2 hA hB⟩
    · simp only [setAbsolute, hA, hB, Bool.false_eq_true, if_false, if_true, hA0] at hm ⊢
      exact hm.2.2.1
    · simp only [setAbsolute, hA, hB, Bool.false_eq_true, if_false, if_true, hA0] at hm ⊢
      exact hm.2.2.2

/-- The frame that each strength operation appends to the wire on a
connected controller when the write succeeds: the base frame of some
controller, made absolute for the channel with the strength just stored. -/
theorem strength_wire (c : Controller) (channel : String) (value : Int)
    (hconn : c.btAdapter.IsConnected = true) :
    ∀ r ∈ [c.SetStrength channel value true, c.AddStrength channel value true,
        c.SubStrength channel value true],
      (isA channel = true →
        ∃ c1 : Controller, r.1.btAdapter.wire = c.btAdapter.wire ++
          [(setAbsolute c1.buildB0Command.2 channel r.1.channelState.AStrength).ToBytes]) ∧
      (isA channel = false → isB channel = true →
        ∃ c1 : Controller, r.1.btAdapter.wire = c.btAdapter.wire ++
          [(setAbsolute c1.buildB0Command.2 channel r.1.channelState.BStrength).ToBytes]) := by
  intro r hr
  simp only [List.mem_cons, List.mem_singleton, List.not_mem_nil, or_false] at hr
  rcases hr with rfl | rfl | rfl
  · constructor
    · intro hA
      unfold Controller.SetStrength
      simp only [hconn, hA, Bool.not_true, Bool.false_eq_true, if_false, if_true,
        (send_fst _ _ _).1, (build_fst _).1]
      exact ⟨_, send_wire _ _ (by rw [(build_fst _).2.1]; exact hconn)⟩
    · intro hA hB
      unfold Controller.SetStrength
      simp only [hconn, hA, hB, Bool.not_true, Bool.false_eq_true, if_false, if_true,
        (send_fst _ _ _).1, (build_fst _).1]
      exact ⟨_, send_wire _ _ (by rw [(build_fst _).2.1]; exact hconn)⟩
  · constructor
    · intro hA
      unfold Controller.AddStrength
      simp only [hconn, hA, Bool.not_true, Bool.false_eq_true, if_false, if_true,
        (send_fst _ _ _).1, (build_fst _).1]
      exact ⟨_, send_wire _ _ (by rw [(build_fst _).2.1]; exact hconn)⟩
    · intro hA hB
      unfold Controller.AddStrength
      simp only [hconn, hA, hB, Bool.not_true, Bool.false_eq_true, if_false, if_true,
        (send_fst _ _ _).1, (build_fst _).1]
      exact ⟨_, send_wire _ _ (by rw [(build_fst _).2.1]; exact hconn)⟩
  · constructor
    · intro hA
      unfold Controller.SubStrength
      simp only [hconn, hA, Bool.not_true, Bool.false_eq_true, if_false, if_true,
        (send_fst _ _ _).1, (build_fst _).1]
      exact ⟨_, send_wire _ _ (by rw [(build_fst _).2.1]; exact hconn)⟩
    · intro hA hB
      unfold Controller.SubStrength
      simp only [hconn, hA, hB, Bool.not_true, Bool.false_eq_true, if_false, if_true,
        (send_fst _ _ _).1, (build_fst _).1]
      exact ⟨_, send_wire _ _ (by rw [(build_fst _).2.1]; exact hconn)⟩

/-- C15: on a connected controller, the frame that `SetStrength`,
`AddStrength` or `SubStrength` puts on the wire has, for an operation on
channel A, mode bits 3..2 `Absolute` and bits 1..0 `NoChange` in byte 1 and
the byte conversion of the newly stored `AStrength` in byte 2; for an
operation on channel B, bits 3..2 `NoChange`, bits 1..0 `Absolute` and the
byte conversion of the newly stored `BStrength` in byte 3.  The mode bits
are therefore never `Increase` or `Decrease`. -/
theorem strength_frames (c : Controller) (channel : String) (value : Int)
    (hconn : c.btAdapter.IsConnected = true) :
    ∀ r ∈ [c.SetStrength channel value true, c.AddStrength channel value true,
        c.SubStrength channel value true],
      (channel = "A" ∨ channel = "a" →
        ∃ frame b1, r.1.btAdapter.wire = c.btAdapter.wire ++ [frame] ∧
          frame[1]? = some b1 ∧
          (b1.val >>> 2) &&& 3 = StrengthModeAbsolute.val ∧
          b1.val &&& 3 = StrengthModeNoChange.val ∧
          frame[2]? = some (byteOfInt r.1.channelState.AStrength)) ∧
      (channel = "B" ∨ channel = "b" →
        ∃ frame b1, r.1.btAdapter.wire = c.btAdapter.wire ++ [frame] ∧
          frame[1]? = some b1 ∧
          (b1.val >>> 2) &&& 3 = StrengthModeNoChange.val ∧
          b1.val &&& 3 = StrengthModeAbsolute.val ∧
          frame[3]? = some (byteOfInt r.1.channelState.BStrength)) := by
  intro r hr
  obtain ⟨hwA, hwB⟩ := strength_wire c channel value hconn r hr
  constructor
  · intro h
    obtain ⟨hA, _⟩ := isA_of channel h
    obtain ⟨c1, hw⟩ := hwA hA
    obtain ⟨b1, h1, h2, h3, h4⟩ := (absolute_frame c1 channel r.1.channelState.AStrength).1 hA
    exact ⟨_, b1, hw, h1, h2, h3, h4⟩
  · intro h
    obtain ⟨hA, hB⟩ := isB_of channel h
    obtain ⟨c1, hw⟩ := hwB hA hB
    obtain ⟨b1, h1, h2, h3, h4⟩ := (absolute_frame c1 channel r.1.channelState.BStrength).2 hA hB
    exact ⟨_, b1, hw, h1, h2, h3, h4⟩

/-- Witness for C15: `AddStrength("A", 50)` at 80 with limit 100, which
stores 20, and `SubStrength("b", 5)` at 60. -/
theorem strength_frames_witness :
    (∃ frame b1,
      ((connectedAt 80 60 100 100).AddStrength "A" 50 true).1.btAdapter.wire
        = (connectedAt 80 60 100 100).btAdapter.wire ++ [frame] ∧
      frame[1]? = some b1 ∧
      (b1.val >>> 2) &&& 3 = StrengthModeAbsolute.val ∧
      b1.val &&& 3 = StrengthModeNoChange.val ∧
      frame[2]? = some (byteOfInt
        ((connectedAt 80 60 100 100).AddStrength "A" 50 true).1.channelState.AStrength)) ∧
    (∃ frame b1,
      ((connectedAt 80 60 100 100).SubStrength "b" 5 true).1.btAdapter.wire
        = (connectedAt 80 60 100 100).btAdapter.wire ++ [frame] ∧
      frame[1]? = some b1 ∧
      (b1.val >>> 2) &&& 3 = StrengthModeNoChange.val ∧
      b1.val &&& 3 = StrengthModeAbsolute.val ∧
      frame[3]? = some (byteOfInt
        ((connectedAt 80 60 100 100).SubStrength "b" 5 true).1.channelState.BStrength)) :=
  ⟨(strength_frames (connectedAt 80 60 100 100) "A" 50 rfl _
      (List.mem_cons_of_mem _ (List.mem_cons_self _ _))).1 (Or.inl rfl),
    (strength_frames (connectedAt 80 60 100 100) "b" 5 rfl _
      (List.mem_cons_of_mem _ (List.mem_cons_of_mem _ (List.mem_cons_self _ _)))).2
      (Or.inr rfl)⟩

/-- The default waveform: when the current pattern is missing or has no
frames, every slot of the base frame is `{Frequency: 10, Strength: 50}`. -/
theorem build_fallback (c : Controller)
    (h : (∃ e, c.pulseManager.GetPulse c.channelState.CurrentPulse = .error e) ∨
      (∃ p, c.pulseManager.GetPulse c.channelState.CurrentPulse = .ok p ∧ p.PulseData = []))
    (i : Fin 4) :
    c.buildB0Command.2.AWaveData i = { Frequency := 10, Strength := 50 } ∧
      c.buildB0Command.2.BWaveData i = { Frequency := 10, Strength := 50 } := by
  rcases h with ⟨e, he⟩ | ⟨p, hp, hd⟩
  · simp only [Controller.buildB0Command, he, Except.toOption, Option.map]
    fin_cases i <;> exact ⟨rfl, rfl⟩
  · simp only [Controller.buildB0Command, hp, Except.toOption, Option.map, hd]
    fin_cases i <;> exact ⟨rfl, rfl⟩

/-- C16: when a frame is built and the pattern named by `CurrentPulse`
exists with a first frame `hexData`, the A slots and the B slots are both
the result of `WaveDataFromHex hexData` when it succeeds, and both the zero
array (which the Go function returns beside its error) when it fails; when
the pattern is missing or has no frames, all 8 slots are
`{Frequency: 10, Strength: 50}`. -/
theorem build_waveform (c : Controller) :
    (∀ p hexData rest, c.pulseManager.GetPulse c.channelState.CurrentPulse = .ok p →
      p.PulseData = hexData :: rest →
      (∀ waves, WaveDataFromHex hexData = .ok waves →
        c.buildB0Command.2.AWaveData = waves ∧ c.buildB0Command.2.BWaveData = waves) ∧
      (∀ e, WaveDataFromHex hexData = .error e →
        c.buildB0Command.2.AWaveData = zeroWaves ∧ c.buildB0Command.2.BWaveData = zeroWaves)) ∧
    ((∃ e, c.pulseManager.GetPulse c.channelState.CurrentPulse = .error e) ∨
        (∃ p, c.pulseManager.GetPulse c.channelState.CurrentPulse = .ok p ∧ p.PulseData = []) →
      ∀ i, c.buildB0Command.2.AWaveData i = { Frequency := 10, Strength := 50 } ∧
        c.buildB0Command.2.BWaveData i = { Frequency := 10, Strength := 50 }) := by
  constructor
  · intro p hexData rest hp hd
    constructor
    · intro waves hw
      simp only [Controller.buildB0Command, hp, Except.toOption, Option.map, hd, hw]
      exact ⟨trivial, trivial⟩
    · intro e he
      simp only [Controller.buildB0Command, hp, Except.toOption, Option.map, hd, he]
      exact ⟨trivial, trivial⟩
  · intro h i
    exact build_fallback c h i

/-- Witness for C16: the first built-in pattern, whose first frame is
`"0A0A0A0A00000000"`, and the same controller with an unknown pattern
selected. -/
theorem build_waveform_witness :
    (∀ waves, WaveDataFromHex "0A0A0A0A00000000" = .ok waves →
      (connectedAt 0 0 100 100).buildB0Command.2.AWaveData = waves ∧
        (connectedAt 0 0 100 100).buildB0Command.2.BWaveData = waves) ∧
    (∀ i,
      ({ connectedAt 0 0 100 100 with
          channelState := ⟨0, 0, 100, 100, "nope", 0⟩ } : Controller).buildB0Command.2.AWaveData i
        = { Frequency := 10, Strength := 50 } ∧
      ({ connectedAt 0 0 100 100 with
          channelState := ⟨0, 0, 100, 100, "nope", 0⟩ } : Controller).buildB0Command.2.BWaveData i
        = { Frequency := 10, Strength := 50 }) :=
  ⟨((build_waveform (connectedAt 0 0 100 100)).1 _ "0A0A0A0A00000000" _ rfl rfl).1,
    (build_waveform { connectedAt 0 0 100 100 with
      channelState := ⟨0, 0, 100, 100, "nope", 0⟩ }).2 (Or.inl ⟨_, rfl⟩)⟩

/-! ## Theorems: disconnecting and waveform ranges -/

open bluetooth

/-- C18, counterexample: on a connected adapter whose platform disconnect
reports an error, the first of two `Disconnect` calls returns that error. -/
theorem disconnect_twice_counterexample :
    ((⟨some 0, true, []⟩ : BluetoothAdapter).Disconnect false).2 = some .disconnectFailed ∧
    ¬ (((⟨some 0, true, []⟩ : BluetoothAdapter).Disconnect false).2 = none ∧
      ((((⟨some 0, true, []⟩ : BluetoothAdapter).Disconnect false).1).Disconnect true).2
        = none) := by
  decide

/-- C18, amended: for every adapter state, the first `Disconnect` returns
no error unless a device was connected and the platform disconnect reported
one; a second `Disconnect` right after it returns no error and changes
nothing, whatever the platform would answer. -/
theorem disconnect_twice (ba : BluetoothAdapter) (discOk1 discOk2 : Bool) :
    (ba.device = none ∨ ba.connected = false ∨ discOk1 = true →
      (ba.Disconnect discOk1).2 = none) ∧
    (ba.Disconnect discOk1).1.Disconnect discOk2 = ((ba.Disconnect discOk1).1, none) := by
  unfold BluetoothAdapter.Disconnect
  cases hd : ba.device <;> cases hc : ba.connected <;> cases discOk1 <;>
    simp [hd, hc]

/-- Witness for C18 as amended: a connected adapter whose platform
disconnect succeeds. -/
theorem disconnect_twice_witness :
    ((⟨some 0, true, []⟩ : BluetoothAdapter).Disconnect true).2 = none ∧
    ((⟨some 0, true, []⟩ : BluetoothAdapter).Disconnect true).1.Disconnect false =
      (((⟨some 0, true, []⟩ : BluetoothAdapter).Disconnect true).1, none) :=
  ⟨(disconnect_twice ⟨some 0, true, []⟩ true false).1 (Or.inr (Or.inr rfl)),
    (disconnect_twice ⟨some 0, true, []⟩ true false).2⟩

/-- C19, counterexample: `ScanAndConnect` finds the device and connects
(handle 7), then service discovery fails; the adapter holds the handle but
is not marked connected, and `Disconnect` returns without touching it: the
handle is still there afterwards. -/
theorem disconnect_link_counterexample :
    (NewBluetoothAdapter.ScanAndConnect 30 ["47L121000", "47L120100"] (fun a b => a == b)
        ⟨false, ["47L121000"], some 7, none, none⟩).2 = some .discoverServicesFailed ∧
    (NewBluetoothAdapter.ScanAndConnect 30 ["47L121000", "47L120100"] (fun a b => a == b)
        ⟨false, ["47L121000"], some 7, none, none⟩).1.device = some 7 ∧
    ((NewBluetoothAdapter.ScanAndConnect 30 ["47L121000", "47L120100"] (fun a b => a == b)
        ⟨false, ["47L121000"], some 7, none, none⟩).1.Disconnect true).1.device = some 7 := by
  decide

/-- C19, amended: for every adapter state that holds a device handle and is
marked connected, `Disconnect` leaves the adapter with no device and not
connected, whatever the platform disconnect answers. -/
theorem disconnect_link (ba : BluetoothAdapter) (discOk : Bool) (device : Nat)
    (hdev : ba.device = some device) (hconn : ba.connected = true) :
    (ba.Disconnect discOk).1.device = none ∧ (ba.Disconnect discOk).1.connected = false := by
  simp [BluetoothAdapter.Disconnect, hdev, hconn]

/-- Witness for C19 as amended: the adapter after a `ScanAndConnect` in
which every step succeeded. -/
theorem disconnect_link_witness :
    ((NewBluetoothAdapter.ScanAndConnect 30 ["47L121000", "47L120100"] (fun a b => a == b)
        ⟨false, ["47L121000"], some 7, some 1,
          some ["0000150a-0000-1000-8000-00805f9b34fb"]⟩).1.Disconnect false).1.device = none ∧
    ((NewBluetoothAdapter.ScanAndConnect 30 ["47L121000", "47L120100"] (fun a b => a == b)
        ⟨false, ["47L121000"], some 7, some 1,
          some ["0000150a-0000-1000-8000-00805f9b34fb"]⟩).1.Disconnect false).1.connected
      = false :=
  disconnect_link _ false 7 rfl rfl

set_option maxRecDepth 100000 in
/-- The frequency clamp of `WaveDataFromHex` lands in 10..240. -/
theorem clamp_frequency (d : Byte) :
    10 ≤ (if d < 10 then (10 : Byte) else if d > 240 then 240 else d).val ∧
    (if d < 10 then (10 : Byte) else if d > 240 then 240 else d).val ≤ 240 := by
  revert d
  decide

set_option maxRecDepth 100000 in
/-- The strength clamp of `WaveDataFromHex` lands in 0..100. -/
theorem clamp_strength (d : Byte) : (if d > 100 then (100 : Byte) else d).val ≤ 100 := by
  revert d
  decide

/-- Every slot of a successful `WaveDataFromHex` is in range. -/
theorem waveDataFromHex_range (hexStr : String) (waves : Fin 4 → WaveData)
    (h : WaveDataFromHex hexStr = .ok waves) (i : Fin 4) :
    10 ≤ (waves i).Frequency.val ∧ (waves i).Frequency.val ≤ 240 ∧
      (waves i).Strength.val ≤ 100 := by
  unfold WaveDataFromHex at h
  cases hd : hex.DecodeString hexStr with
  | error e => rw [hd] at h; simp at h
  | ok data =>
    rw [hd] at h
    simp only at h
    split at h
    · simp at h
    · have hw := Except.ok.inj h
      subst hw
      simp only [slots, List.foldl]
      fin_cases i <;> simp [Function.update] <;>
        exact ⟨(clamp_frequency _).1, (clamp_frequency _).2, clamp_strength _⟩

/-- Slots in range whenever the frame is built from a pattern whose first
frame decodes, or from the default waveform. -/
theorem build_waveform_range (c : Controller)
    (h : (∃ e, c.pulseManager.GetPulse c.channelState.CurrentPulse = .error e) ∨
      (∃ p, c.pulseManager.GetPulse c.channelState.CurrentPulse = .ok p ∧ p.PulseData = []) ∨
      (∃ p hexData rest waves, c.pulseManager.GetPulse c.channelState.CurrentPulse = .ok p ∧
        p.PulseData = hexData :: rest ∧ WaveDataFromHex hexData = .ok waves)) (i : Fin 4) :
    (10 ≤ (c.buildB0Command.2.AWaveData i).Frequency.val ∧
      (c.buildB0Command.2.AWaveData i).Frequency.val ≤ 240 ∧
      (c.buildB0Command.2.AWaveData i).Strength.val ≤ 100) ∧
    (10 ≤ (c.buildB0Command.2.BWaveData i).Frequency.val ∧
      (c.buildB0Command.2.BWaveData i).Frequency.val ≤ 240 ∧
      (c.buildB0Command.2.BWaveData i).Strength.val ≤ 100) := by
  rcases h with ⟨e, he⟩ | ⟨p, hp, hd⟩ | ⟨p, hexData, rest, waves, hp, hd, hw⟩
  · rw [(build_fallback c (Or.inl ⟨e, he⟩) i).1, (build_fallback c (Or.inl ⟨e, he⟩) i).2]
    decide
  · rw [(build_fallback c (Or.inr ⟨p, hp, hd⟩) i).1, (build_fallback c (Or.inr ⟨p, hp, hd⟩) i).2]
    decide
  · simp only [Controller.buildB0Command, hp, Except.toOption, Option.map, hd, hw]
    exact ⟨waveDataFromHex_range hexData waves hw i, waveDataFromHex_range hexData waves hw i⟩

/-- C20, failing input: the first built-in pattern is replaced by one whose
first frame has 15 digits; `WaveDataFromHex` fails on it, the frame keeps
the zero array, and all 8 slots go out as `{Frequency: 0, Strength: 0}`,
with the frequency below 10. -/
theorem waveform_range_broken :
    (∀ i,
      ({ connectedAt 0 0 100 100 with
          pulseManager := pulse.NewDefaultManager.AddPulse
            ⟨"d6f83af0", "呼吸", ["0A0A0A0A0000000"]⟩ } : Controller).buildB0Command.2.AWaveData i
        = { Frequency := 0, Strength := 0 } ∧
      ({ connectedAt 0 0 100 100 with
          pulseManager := pulse.NewDefaultManager.AddPulse
            ⟨"d6f83af0", "呼吸", ["0A0A0A0A0000000"]⟩ } : Controller).buildB0Command.2.BWaveData i
        = { Frequency := 0, Strength := 0 }) ∧
    (({ connectedAt 0 0 100 100 with
          pulseManager := pulse.NewDefaultManager.AddPulse
            ⟨"d6f83af0", "呼吸", ["0A0A0A0A0000000"]⟩ } : Controller).SetStrength "A" 10
        true).1.btAdapter.wire =
      [[0xB0, 0x1C, 10, 0, 0, 0, 0, 0, 0, 0, 0, 0, 0, 0, 0, 0, 0, 0, 0, 0]] := by
  decide

/-! ## Theorems: failed writes and the strength range -/

/-- A failed write on a connected adapter: the error is returned and the
controller is left as it was. -/
theorem send_failed (c : Controller) (cmd : B0Command) (hconn : c.btAdapter.IsConnected = true) :
    c.sendCommand cmd false = (c, some (.sendFailed .writeFailed)) := by
  have hc : c.btAdapter.connected = true := hconn
  simp [Controller.sendCommand, BluetoothAdapter.WriteCharacteristic, hc]

/-- A failed write right after a build. -/
theorem send_failed_after_build (c1 : Controller) (cmd : B0Command)
    (hconn : c1.btAdapter.IsConnected = true) :
    c1.buildB0Command.1.sendCommand cmd false
      = (c1.buildB0Command.1, some (.sendFailed .writeFailed)) :=
  send_failed _ _ (by rw [(build_fst c1).2.1]; exact hconn)

/-- The result of each strength operation on a connected controller with a
valid channel when the write fails: the send error, and the controller as
the build left it. -/
theorem strength_failed (c : Controller) (channel : String) (value : Int)
    (hconn : c.btAdapter.IsConnected = true) (hch : isA channel = true ∨ isB channel = true) :
    ∀ r ∈ [c.SetStrength channel value false, c.AddStrength channel value false,
        c.SubStrength channel value false],
      r.2 = some (.sendFailed .writeFailed) ∧
      r.1.sequence = c.buildB0Command.1.sequence ∧
      r.1.btAdapter = c.btAdapter := by
  intro r hr
  simp only [List.mem_cons, List.mem_singleton, List.not_mem_nil, or_false] at hr
  rcases hr with rfl | rfl | rfl
  · unfold Controller.SetStrength
    cases hA : isA channel
    · have hB : isB channel = true := by simpa [hA] using hch
      simp only [hconn, hB, Bool.not_true, Bool.false_eq_true, if_false, if_true]
      rw [send_failed_after_build]
      · exact ⟨rfl, rfl, rfl⟩
      · exact hconn
    · simp only [hconn, Bool.not_true, Bool.false_eq_true, if_false, if_true]
      rw [send_failed_after_build]
      · exact ⟨rfl, rfl, rfl⟩
      · exact hconn
  · unfold Controller.AddStrength
    cases hA : isA channel
    · have hB : isB channel = true := by simpa [hA] using hch
      simp only [hconn, hB, Bool.not_true, Bool.false_eq_true, if_false, if_true]
      rw [send_failed_after_build]
      · exact ⟨rfl, rfl, rfl⟩
      · exact hconn
    · simp only [hconn, Bool.not_true, Bool.false_eq_true, if_false, if_true]
      rw [send_failed_after_build]
      · exact ⟨rfl, rfl, rfl⟩
      · exact hconn
  · unfold Controller.SubStrength
    cases hA : isA channel
    · have hB : isB channel = true := by simpa [hA] using hch
      simp only [hconn, hB, Bool.not_true, Bool.false_eq_true, if_false, if_true]
      rw [send_failed_after_build]
      · exact ⟨rfl, rfl, rfl⟩
      · exact hconn
    · simp only [hconn, Bool.not_true, Bool.false_eq_true, if_false, if_true]
      rw [send_failed_after_build]
      · exact ⟨rfl, rfl, rfl⟩
      · exact hconn

/-- C22: on a connected controller, for channel A or B, when the write
fails each of `SetStrength`, `AddStrength` and `SubStrength` returns the
send error, yet leaves the channel state that the same call leaves when the
write succeeds (the new strength is stored), and the sequence counter is
the one after a build: one step further, which for a counter in 1..15 is
the successor, or 1 after 15.  Nothing reaches the wire. -/
theorem failed_write_not_atomic (c : Controller) (channel : String) (value : Int)
    (hconn : c.btAdapter.IsConnected = true)
    (hch : channel = "A" ∨ channel = "a" ∨ channel = "B" ∨ channel = "b") :
    (∀ p ∈ [(c.SetStrength channel value false, c.SetStrength channel value true),
        (c.AddStrength channel value false, c.AddStrength channel value true),
        (c.SubStrength channel value false, c.SubStrength channel value true)],
      p.1.2 = some (.sendFailed .writeFailed) ∧
      p.1.1.channelState = p.2.1.channelState ∧
      p.1.1.sequence = c.buildB0Command.1.sequence ∧
      (1 ≤ c.sequence.val → c.sequence.val ≤ 15 →
        p.1.1.sequence.val = c.sequence.val % 15 + 1) ∧
      p.1.1.btAdapter.wire = c.btAdapter.wire) ∧
    (channel = "A" ∨ channel = "a" →
      (c.SetStrength channel value false).1.channelState.AStrength =
        min (max 0 (min value 200)) c.channelState.ALimit ∧
      (c.AddStrength channel value false).1.channelState.AStrength =
        (if max 0 (min (max (wrapInt (c.channelState.AStrength + value)) 0) 200)
            > c.channelState.ALimit then 20
        else max 0 (min (max (wrapInt (c.channelState.AStrength + value)) 0) 200)) ∧
      (c.SubStrength channel value false).1.channelState.AStrength =
        max 0 (min (max (wrapInt (c.channelState.AStrength - value)) 0) 200)) ∧
    (channel = "B" ∨ channel = "b" →
      (c.SetStrength channel value false).1.channelState.BStrength =
        min (max 0 (min value 200)) c.channelState.BLimit ∧
      (c.AddStrength channel value false).1.channelState.BStrength =
        (if max 0 (min (max (wrapInt (c.channelState.BStrength + value)) 0) 200)
            > c.channelState.BLimit then 20
        else max 0 (min (max (wrapInt (c.channelState.BStrength + value)) 0) 200)) ∧
      (c.SubStrength channel value false).1.channelState.BStrength =
        max 0 (min (max (wrapInt (c.channelState.BStrength - value)) 0) 200)) := by
  have hch' : isA channel = true ∨ isB channel = true := by
    rcases hch with h | h | h | h
    · exact Or.inl (isA_of channel (Or.inl h)).1
    · exact Or.inl (isA_of channel (Or.inr h)).1
    · exact Or.inr (isB_of channel (Or.inl h)).2
    · exact Or.inr (isB_of channel (Or.inr h)).2
  have hsub : ∀ w : Bool, (c.SubStrength channel value w).1.channelState =
      (c.SubStrength channel value true).1.channelState := by
    intro w
    cases hA : isA channel
    · have hB : isB channel = true := by simpa [hA] using hch'
      rw [((subStrength_state c channel value w hconn).2 hA hB).1,
        ((subStrength_state c channel value true hconn).2 hA hB).1]
    · rw [((subStrength_state c channel value w hconn).1 hA).1,
        ((subStrength_state c channel value true hconn).1 hA).1]
  refine ⟨?_, ?_, ?_⟩
  · intro p hp
    simp only [List.mem_cons, List.mem_singleton, List.not_mem_nil, or_false] at hp
    have hf := strength_failed c channel value hconn hch'
    rcases hp with rfl | rfl | rfl
    · obtain ⟨h1, h2, h3⟩ := hf (c.SetStrength channel value false) (by simp)
      refine ⟨h1, ?_, h2, ?_, by rw [h3]⟩
      · show (c.SetStrength channel value false).1.channelState
          = (c.SetStrength channel value true).1.channelState
        rw [setStrength_state c channel value false hconn,
          setStrength_state c channel value true hconn]
      · intro h1' h15
        show (c.SetStrength channel value false).1.sequence.val = _
        rw [h2, build_counter c h1' h15]
    · obtain ⟨h1, h2, h3⟩ := hf (c.AddStrength channel value false) (by simp)
      refine ⟨h1, ?_, h2, ?_, by rw [h3]⟩
      · show (c.AddStrength channel value false).1.channelState
          = (c.AddStrength channel value true).1.channelState
        rw [addStrength_state c channel value false hconn,
          addStrength_state c channel value true hconn]
      · intro h1' h15
        show (c.AddStrength channel value false).1.sequence.val = _
        rw [h2, build_counter c h1' h15]
    · obtain ⟨h1, h2, h3⟩ := hf (c.SubStrength channel value false) (by simp)
      refine ⟨h1, hsub false, h2, ?_, by rw [h3]⟩
      intro h1' h15
      show (c.SubStrength channel value false).1.sequence.val = _
      rw [h2, build_counter c h1' h15]
  · intro h
    obtain ⟨hA, _⟩ := isA_of channel h
    refine ⟨?_, ?_, ?_⟩
    · rw [setStrength_state c channel value false hconn, if_pos hA]
    · rw [addStrength_state c channel value false hconn, if_pos hA]
    · rw [((subStrength_state c channel value false hconn).1 hA).1]
  · intro h
    obtain ⟨hA, hB⟩ := isB_of channel h
    refine ⟨?_, ?_, ?_⟩
    · rw [setStrength_state c channel value false hconn, hA, if_pos hB]
      simp
    · rw [addStrength_state c channel value false hconn, hA, if_pos hB]
      simp
    · rw [((subStrength_state c channel value false hconn).2 hA hB).1]

/-- Witness for C22: `SetStrength("A", 55)` on a connected controller with
channel A at 10, limit 100 and counter 1, the write failing. -/
theorem failed_write_not_atomic_witness :
    ((connectedAt 10 0 100 100).SetStrength "A" 55 false).2
      = some (.sendFailed .writeFailed) ∧
    ((connectedAt 10 0 100 100).SetStrength "A" 55 false).1.channelState
      = ((connectedAt 10 0 100 100).SetStrength "A" 55 true).1.channelState ∧
    ((connectedAt 10 0 100 100).SetStrength "A" 55 false).1.sequence
      = (connectedAt 10 0 100 100).buildB0Command.1.sequence ∧
    ((connectedAt 10 0 100 100).SetStrength "A" 55 false).1.sequence.val = 1 % 15 + 1 ∧
    ((connectedAt 10 0 100 100).SetStrength "A" 55 false).1.btAdapter.wire = [] ∧
    ((connectedAt 10 0 100 100).SetStrength "A" 55 false).1.channelState.AStrength
      = min (max 0 (min 55 200)) 100 :=
  ⟨((failed_write_not_atomic (connectedAt 10 0 100 100) "A" 55 rfl (Or.inl rfl)).1 _
      (List.mem_cons_self _ _)).1,
    ((failed_write_not_atomic (connectedAt 10 0 100 100) "A" 55 rfl (Or.inl rfl)).1 _
      (List.mem_cons_self _ _)).2.1,
    ((failed_write_not_atomic (connectedAt 10 0 100 100) "A" 55 rfl (Or.inl rfl)).1 _
      (List.mem_cons_self _ _)).2.2.1,
    ((failed_write_not_atomic (connectedAt 10 0 100 100) "A" 55 rfl (Or.inl rfl)).1 _
      (List.mem_cons_self _ _)).2.2.2.1 (by decide) (by decide),
    ((failed_write_not_atomic (connectedAt 10 0 100 100) "A" 55 rfl (Or.inl rfl)).1 _
      (List.mem_cons_self _ _)).2.2.2.2,
    ((failed_write_not_atomic (connectedAt 10 0 100 100) "A" 55 rfl (Or.inl rfl)).2.1
      (Or.inl rfl)).1⟩

/-- The base frame has both strength bytes 0. -/
theorem build_strengths (c : Controller) :
    c.buildB0Command.2.AStrength = 0 ∧ c.buildB0Command.2.BStrength = 0 := by
  unfold Controller.buildB0Command
  dsimp only
  split
  · split <;> split <;> exact ⟨rfl, rfl⟩
  · exact ⟨rfl, rfl⟩

/-- Both strength bytes of the frame made by `setAbsolute` from a base
frame: the touched channel's byte is `byte(strength)`, the other one 0. -/
theorem absolute_strengths (c : Controller) (channel : String) (strength : Int) :
    (isA channel = true →
      (setAbsolute c.buildB0Command.2 channel strength).ToBytes[2]? = some (byteOfInt strength) ∧
      (setAbsolute c.buildB0Command.2 channel strength).ToBytes[3]? = some 0) ∧
    (isA channel = false → isB channel = true →
      (setAbsolute c.buildB0Command.2 channel strength).ToBytes[2]? = some 0 ∧
      (setAbsolute c.buildB0Command.2 channel strength).ToBytes[3]? = some (byteOfInt strength)) := by
  obtain ⟨hA0, hB0⟩ := build_strengths c
  constructor
  · intro hA
    rw [toBytes_eq]
    simp [setAbsolute, hA, hB0]
  · intro hA hB
    rw [toBytes_eq]
    simp [setAbsolute, hA, hB, hA0]

/-- The channel state left by `SubStrength` on a connected controller, for
every channel string. -/
theorem subStrength_channelState (c : Controller) (channel : String) (delta : Int)
    (writeOk : Bool) (hconn : c.btAdapter.IsConnected = true) :
    (c.SubStrength channel delta writeOk).1.channelState =
      if isA channel then
        { c.channelState with
          AStrength := max 0 (min (max (wrapInt (c.channelState.AStrength - delta)) 0) 200) }
      else if isB channel then
        { c.channelState with
          BStrength := max 0 (min (max (wrapInt (c.channelState.BStrength - delta)) 0) 200) }
      else c.channelState := by
  cases hA : isA channel
  · cases hB : isB channel
    · unfold Controller.SubStrength
      simp only [hconn, hA, hB, Bool.not_true, Bool.false_eq_true, if_false]
    · rw [((subStrength_state c channel delta writeOk hconn).2 hA hB).1]
      simp
  · rw [((subStrength_state c channel delta writeOk hconn).1 hA).1]
    simp

/-- The four range conditions are kept by every operation, connected or
not, for every channel string and argument. -/
theorem range_kept (c : Controller) (channel : String) (value : Int) (writeOk : Bool)
    (id : String)
    (hA : 0 ≤ c.channelState.AStrength ∧ c.channelState.AStrength ≤ 200)
    (hB : 0 ≤ c.channelState.BStrength ∧ c.channelState.BStrength ≤ 200)
    (hAL : 0 ≤ c.channelState.ALimit ∧ c.channelState.ALimit ≤ 200)
    (hBL : 0 ≤ c.channelState.BLimit ∧ c.channelState.BLimit ≤ 200) :
    ∀ r ∈ [c.SetStrength channel value writeOk, c.AddStrength channel value writeOk,
        c.SubStrength channel value writeOk, c.SetLimit channel value, c.SetPulse id],
      (0 ≤ r.1.channelState.AStrength ∧ r.1.channelState.AStrength ≤ 200) ∧
      (0 ≤ r.1.channelState.BStrength ∧ r.1.channelState.BStrength ≤ 200) ∧
      (0 ≤ r.1.channelState.ALimit ∧ r.1.channelState.ALimit ≤ 200) ∧
      (0 ≤ r.1.channelState.BLimit ∧ r.1.channelState.BLimit ≤ 200) := by
  intro r hr
  simp only [List.mem_cons, List.mem_singleton, List.not_mem_nil, or_false] at hr
  have hkeep : (0 ≤ c.channelState.AStrength ∧ c.channelState.AStrength ≤ 200) ∧
      (0 ≤ c.channelState.BStrength ∧ c.channelState.BStrength ≤ 200) ∧
      (0 ≤ c.channelState.ALimit ∧ c.channelState.ALimit ≤ 200) ∧
      (0 ≤ c.channelState.BLimit ∧ c.channelState.BLimit ≤ 200) := ⟨hA, hB, hAL, hBL⟩
  rcases hr with rfl | rfl | rfl | rfl | rfl
  · cases hconn : c.btAdapter.IsConnected
    · simp only [Controller.SetStrength, hconn, Bool.not_false, if_true]
      exact hkeep
    · rw [setStrength_state c channel value writeOk hconn]
      split_ifs
      · exact ⟨by constructor <;> simp only <;> omega, hB, hAL, hBL⟩
      · exact ⟨hA, by constructor <;> simp only <;> omega, hAL, hBL⟩
      · exact hkeep
  · cases hconn : c.btAdapter.IsConnected
    · simp only [Controller.AddStrength, hconn, Bool.not_false, if_true]
      exact hkeep
    · rw [addStrength_state c channel value writeOk hconn]
      split_ifs
      · exact ⟨by constructor <;> simp only <;> omega, hB, hAL, hBL⟩
      · exact ⟨by constructor <;> simp only <;> omega, hB, hAL, hBL⟩
      · exact ⟨hA, by constructor <;> simp only <;> omega, hAL, hBL⟩
      · exact ⟨hA, by constructor <;> simp only <;> omega, hAL, hBL⟩
      · exact hkeep
  · cases hconn : c.btAdapter.IsConnected
    · simp only [Controller.SubStrength, hconn, Bool.not_false, if_true]
      exact hkeep
    · rw [subStrength_channelState c channel value writeOk hconn]
      split_ifs
      · exact ⟨by constructor <;> simp only <;> omega, hB, hAL, hBL⟩
      · exact ⟨hA, by constructor <;> simp only <;> omega, hAL, hBL⟩
      · exact hkeep
  · unfold Controller.SetLimit
    simp only [validateStrength_val]
    split_ifs <;> simp only <;> refine ⟨⟨?_, ?_⟩, ⟨?_, ?_⟩, ⟨?_, ?_⟩, ⟨?_, ?_⟩⟩ <;> omega
  · unfold Controller.SetPulse
    split <;> exact hkeep

/-- C21: if `AStrength`, `BStrength`, `ALimit` and `BLimit` all lie in
0..200, they all lie in 0..200 after `SetStrength`, `AddStrength`,
`SubStrength`, `SetLimit` and `SetPulse`, for every channel string, every
integer argument and every write outcome, connected or not.  Hence, in the
frame that a strength operation puts on the wire, the strength byte of the
touched channel equals the newly stored strength as a number (nothing is
lost to the 8-bit conversion), and neither strength byte exceeds 200 (the
other channel's byte is 0). -/
theorem strength_range (c : Controller) (channel : String) (value : Int) (writeOk : Bool)
    (id : String)
    (hA : 0 ≤ c.channelState.AStrength ∧ c.channelState.AStrength ≤ 200)
    (hB : 0 ≤ c.channelState.BStrength ∧ c.channelState.BStrength ≤ 200)
    (hAL : 0 ≤ c.channelState.ALimit ∧ c.channelState.ALimit ≤ 200)
    (hBL : 0 ≤ c.channelState.BLimit ∧ c.channelState.BLimit ≤ 200) :
    (∀ r ∈ [c.SetStrength channel value writeOk, c.AddStrength channel value writeOk,
        c.SubStrength channel value writeOk, c.SetLimit channel value, c.SetPulse id],
      (0 ≤ r.1.channelState.AStrength ∧ r.1.channelState.AStrength ≤ 200) ∧
      (0 ≤ r.1.channelState.BStrength ∧ r.1.channelState.BStrength ≤ 200) ∧
      (0 ≤ r.1.channelState.ALimit ∧ r.1.channelState.ALimit ≤ 200) ∧
      (0 ≤ r.1.channelState.BLimit ∧ r.1.channelState.BLimit ≤ 200)) ∧
    (c.btAdapter.IsConnected = true →
      ∀ r ∈ [c.SetStrength channel value true, c.AddStrength channel value true,
          c.SubStrength channel value true],
        (channel = "A" ∨ channel = "a" →
          ∃ frame sA sB, r.1.btAdapter.wire = c.btAdapter.wire ++ [frame] ∧
            frame[2]? = some sA ∧ frame[3]? = some sB ∧
            ((sA.val : Nat) : Int) = r.1.channelState.AStrength ∧
            sA.val ≤ 200 ∧ sB.val ≤ 200) ∧
        (channel = "B" ∨ channel = "b" →
          ∃ frame sA sB, r.1.btAdapter.wire = c.btAdapter.wire ++ [frame] ∧
            frame[2]? = some sA ∧ frame[3]? = some sB ∧
            ((sB.val : Nat) : Int) = r.1.channelState.BStrength ∧
            sA.val ≤ 200 ∧ sB.val ≤ 200)) := by
  constructor
  · exact range_kept c channel value writeOk id hA hB hAL hBL
  · intro hconn r hr
    have hrange := range_kept c channel value true id hA hB hAL hBL r (by
      simp only [List.mem_cons, List.mem_singleton, List.not_mem_nil, or_false] at hr ⊢
      rcases hr with h | h | h
      · exact Or.inl h
      · exact Or.inr (Or.inl h)
      · exact Or.inr (Or.inr (Or.inl h)))
    obtain ⟨⟨hA0, hA1⟩, ⟨hB0, hB1⟩, _, _⟩ := hrange
    obtain ⟨hwA, hwB⟩ := strength_wire c channel value hconn r hr
    constructor
    · intro h
      obtain ⟨hcA, _⟩ := isA_of channel h
      obtain ⟨c1, hw⟩ := hwA hcA
      obtain ⟨h2, h3⟩ := (absolute_strengths c1 channel r.1.channelState.AStrength).1 hcA
      have hv := byteOfInt_val r.1.channelState.AStrength hA0 (by omega)
      refine ⟨_, _, _, hw, h2, h3, hv, ?_, by decide⟩
      omega
    · intro h
      obtain ⟨hcA, hcB⟩ := isB_of channel h
      obtain ⟨c1, hw⟩ := hwB hcA hcB
      obtain ⟨h2, h3⟩ := (absolute_strengths c1 channel r.1.channelState.BStrength).2 hcA hcB
      have hv := byteOfInt_val r.1.channelState.BStrength hB0 (by omega)
      refine ⟨_, _, _, hw, h2, h3, hv, by decide, ?_⟩
      omega

/-- Witness for C21: channel A at 80, channel B at 60, both limits 100;
`AddStrength("A", 50)`, and `SetLimit("A", 50)`. -/
theorem strength_range_witness :
    ((0 ≤ ((connectedAt 80 60 100 100).SetLimit "A" 50).1.channelState.AStrength ∧
        ((connectedAt 80 60 100 100).SetLimit "A" 50).1.channelState.AStrength ≤ 200) ∧
      (0 ≤ ((connectedAt 80 60 100 100).SetLimit "A" 50).1.channelState.BStrength ∧
        ((connectedAt 80 60 100 100).SetLimit "A" 50).1.channelState.BStrength ≤ 200) ∧
      (0 ≤ ((connectedAt 80 60 100 100).SetLimit "A" 50).1.channelState.ALimit ∧
        ((connectedAt 80 60 100 100).SetLimit "A" 50).1.channelState.ALimit ≤ 200) ∧
      (0 ≤ ((connectedAt 80 60 100 100).SetLimit "A" 50).1.channelState.BLimit ∧
        ((connectedAt 80 60 100 100).SetLimit "A" 50).1.channelState.BLimit ≤ 200)) ∧
    (∃ frame sA sB,
      ((connectedAt 80 60 100 100).AddStrength "A" 50 true).1.btAdapter.wire
        = (connectedAt 80 60 100 100).btAdapter.wire ++ [frame] ∧
      frame[2]? = some sA ∧ frame[3]? = some sB ∧
      ((sA.val : Nat) : Int)
        = ((connectedAt 80 60 100 100).AddStrength "A" 50 true).1.channelState.AStrength ∧
      sA.val ≤ 200 ∧ sB.val ≤ 200) :=
  ⟨(strength_range (connectedAt 80 60 100 100) "A" 50 true "nope" (by decide) (by decide)
      (by decide) (by decide)).1 _
      (List.mem_cons_of_mem _ (List.mem_cons_of_mem _ (List.mem_cons_of_mem _
        (List.mem_cons_self _ _)))),
    ((strength_range (connectedAt 80 60 100 100) "A" 50 true "nope" (by decide) (by decide)
      (by decide) (by decide)).2 rfl _
      (List.mem_cons_of_mem _ (List.mem_cons_self _ _))).1 (Or.inl rfl)⟩
